import Mathlib

/-!
# Quiz-Me-Generator: the document-to-quiz pipeline

A shallow embedding of `backend/src/services/quizGenerator.js`,
`backend/src/services/documentProcessor.js`, the upload handler of
`backend/src/server.js` and the quiz state of
`frontend/src/components/QuizInterface.js` and `Results.js`, with the properties
of the quiz validator, the text normaliser and extractor, the prompt builder,
the response parser, the failure handling, the navigation and the score.

JavaScript strings are modelled by `String` (worked on as `List Char`); for
text of the Basic Multilingual Plane a character is one UTF-16 code unit, so
`length` and `substring` agree with the source.
-/

namespace QuizMe

/-! ## JavaScript values -/

/-- The values `JSON.parse` can produce, plus `undefined` (what reading an
absent property yields). Numbers are the integer-valued ones; the code only
ever tests a number for being zero. Objects keep their members in order. -/
inductive JsValue where
  | undefined
  | null
  | bool (b : Bool)
  | num (n : Int)
  | str (s : String)
  | arr (items : List JsValue)
  | obj (members : List (String × JsValue))

/-- What the code can throw. -/
inductive JsError where
  /-- Thrown by `new Error(message)`. -/
  | error (message : String)
  /-- The TypeError of reading property `property` of `null` or `undefined`, or of
  calling it on a value that has no such method. -/
  | typeError (property : String)
  /-- The SyntaxError of `JSON.parse` applied to `text`. -/
  | syntaxError (text : String)
  /-- An axios failure: the HTTP status of `error.response` when there is a
  response, `error.code`, and `error.message`. -/
  | axios (status : Option Nat) (code : Option String) (message : String)
  /-- Thrown by line 101: `new Error('Quiz generation failed: ' + cause.message)`. -/
  | generationFailed (cause : JsError)

/-- JavaScript truthiness, the meaning of `!v` being false. -/
def truthy : JsValue → Bool
  | .undefined => false
  | .null => false
  | .bool b => b
  | .num n => n != 0
  | .str s => s != ""
  | .arr _ => true
  | .obj _ => true

/-- The test `typeof v === 'object'`. -/
def typeofIsObject : JsValue → Bool
  | .null => true
  | .arr _ => true
  | .obj _ => true
  | _ => false

/-- The builtin `Array.isArray(v)`. -/
def isArray : JsValue → Bool
  | .arr _ => true
  | _ => false

/-- The property read `v.key`, for the keys this code reads (`questions`, `id`,
`question`, `options`, `correctAnswer`, `A`, `B`, `C`, `D`, and `choices`,
`message`, `content` of a completion), none of which is
an inherited property of an object, array, string, number or boolean: an
object yields its own member or `undefined`, `null` and `undefined` throw a
TypeError, every other value yields `undefined`. -/
def getProp (v : JsValue) (key : String) : Except JsError JsValue :=
  match v with
  | .undefined => .error (.typeError key)
  | .null => .error (.typeError key)
  | .obj members =>
    match members.lookup key with
    | some x => .ok x
    | none => .ok .undefined
  | _ => .ok .undefined

/-! ## `QuizGenerator.validateQuiz` -/

/-- The test `['A', 'B', 'C', 'D'].includes(v)`. -/
def includesABCD : JsValue → Bool
  | .str s => s == "A" || s == "B" || s == "C" || s == "D"
  | _ => false

/-- Message of the first per-question check. -/
def msgMissingFields (index : Nat) : String :=
  "Question " ++ toString (index + 1) ++ " is missing required fields"

/-- Message of the second per-question check. -/
def msgOptions (index : Nat) : String :=
  "Question " ++ toString (index + 1) ++ " must have options A, B, C, and D"

/-- Message of the third per-question check. -/
def msgCorrectAnswer (index : Nat) : String :=
  "Question " ++ toString (index + 1) ++ " must have a correct answer of A, B, C, or D"

/-- The disjunction `!v.k1 || !v.k2 || ...`, evaluated left to right with
short-circuit: `true` as soon as one property is falsy, a TypeError when the
receiver is `null` or `undefined`. -/
def anyFalsy (v : JsValue) : List String → Except JsError Bool
  | [] => .ok false
  | key :: keys =>
    match getProp v key with
    | .error e => .error e
    | .ok x => if truthy x then anyFalsy v keys else .ok true

/-- The body of the `forEach` callback of `validateQuiz` (lines 167-177). -/
def checkQuestion (question : JsValue) (index : Nat) : Except JsError Unit :=
  match anyFalsy question ["id", "question", "options", "correctAnswer"] with
  | .error e => .error e
  | .ok true => .error (.error (msgMissingFields index))
  | .ok false =>
    match getProp question "options" with
    | .error e => .error e
    | .ok options =>
      match anyFalsy options ["A", "B", "C", "D"] with
      | .error e => .error e
      | .ok true => .error (.error (msgOptions index))
      | .ok false =>
        match getProp question "correctAnswer" with
        | .error e => .error e
        | .ok answer =>
          if includesABCD answer then .ok () else .error (.error (msgCorrectAnswer index))

/-- The loop `questions.forEach((question, index) => ...)` from `index` on. -/
def forEachQuestion : List JsValue → Nat → Except JsError Unit
  | [], _ => .ok ()
  | question :: rest, index =>
    match checkQuestion question index with
    | .error e => .error e
    | .ok () => forEachQuestion rest (index + 1)

/-- The method `validateQuiz(quiz)` (lines 152-181). -/
def validateQuiz (quiz : JsValue) : Except JsError Bool :=
  if !truthy quiz || !typeofIsObject quiz then
    .error (.error "Quiz must be a valid object")
  else
    match getProp quiz "questions" with
    | .error e => .error e
    | .ok questions =>
      if !truthy questions || !isArray questions then
        .error (.error "Quiz must contain a questions array")
      else
        match questions with
        | .arr items =>
          if items.length == 0 then
            .error (.error "Quiz must contain at least one question")
          else
            match forEachQuestion items 0 with
            | .error e => .error e
            | .ok () => .ok true
        | _ => .error (.error "Quiz must contain a questions array")

/-! ## The data model of the specification, in its own words -/

/-- A field value that is present and non-empty: not absent (`undefined`), not
`null`, not the empty string. -/
def Present (v : JsValue) : Prop :=
  v ≠ .undefined ∧ v ≠ .null ∧ v ≠ .str ""

/-- The four option labels. -/
def optionLabels : List String := ["A", "B", "C", "D"]

/-- A question as the validator's contract describes it: an object with present,
non-empty `id`, `question`, `options` and `correctAnswer`, a present, non-empty
entry of `options` for each of the labels A, B, C, D, and `correctAnswer` one of
the strings "A", "B", "C", "D". -/
def QuestionShape (q : JsValue) : Prop :=
  ∃ members id question options answer,
    q = .obj members ∧
    members.lookup "id" = some id ∧ Present id ∧
    members.lookup "question" = some question ∧ Present question ∧
    members.lookup "options" = some options ∧ Present options ∧
    members.lookup "correctAnswer" = some answer ∧ Present answer ∧
    (∃ entries, options = .obj entries ∧
      ∀ label ∈ optionLabels, ∃ t, entries.lookup label = some t ∧ Present t) ∧
    (answer = .str "A" ∨ answer = .str "B" ∨ answer = .str "C" ∨ answer = .str "D")

/-- A quiz as the validator's contract describes it: a non-null object whose
`questions` is a non-empty array of questions of the shape above. -/
def QuizShape (quiz : JsValue) : Prop :=
  ∃ members items,
    quiz = .obj members ∧ members.lookup "questions" = some (.arr items) ∧
    items ≠ [] ∧ ∀ q ∈ items, QuestionShape q

/-- A one-question quiz with options A to D, the sample of the specification. -/
def sampleQuestion : JsValue :=
  .obj [("id", .num 1), ("question", .str "What is the sun?"),
    ("options", .obj [("A", .str "A star"), ("B", .str "A planet"),
      ("C", .str "A moon"), ("D", .str "A comet")]),
    ("correctAnswer", .str "A"), ("explanation", .str "The sun is a star.")]

/-- The sample quiz around `sampleQuestion`. -/
def sampleQuiz : JsValue :=
  .obj [("title", .str "Quiz from Study Material"), ("difficulty", .str "easy"),
    ("totalQuestions", .num 1), ("questions", .arr [sampleQuestion])]

/-- A quiz whose `questions` is the given array, with any other members first. -/
def quizOf (items : List JsValue) : JsValue :=
  .obj [("title", .str "Quiz from Study Material"), ("questions", .arr items)]

/-- The sample question without its option "D". -/
def questionMissingD : JsValue :=
  .obj [("id", .num 1), ("question", .str "What is the sun?"),
    ("options", .obj [("A", .str "A star"), ("B", .str "A planet"), ("C", .str "A moon")]),
    ("correctAnswer", .str "A")]

/-- The sample question with `correctAnswer` "E". -/
def questionAnswerE : JsValue :=
  .obj [("id", .num 1), ("question", .str "What is the sun?"),
    ("options", .obj [("A", .str "A star"), ("B", .str "A planet"),
      ("C", .str "A moon"), ("D", .str "A comet")]),
    ("correctAnswer", .str "E")]

/-- A question of the data model: `id` an integer (satisfying `idOk`), `question`
a non-empty string, `options` a mapping with non-empty text for each of the
labels A, B, C, D, `correctAnswer` one of the four labels, and `explanation`
absent or a string. -/
def QuestionConformsWith (idOk : Int → Prop) (q : JsValue) : Prop :=
  ∃ members n text entries answer,
    q = .obj members ∧
    members.lookup "id" = some (.num n) ∧ idOk n ∧
    members.lookup "question" = some (.str text) ∧ text ≠ "" ∧
    members.lookup "options" = some (.obj entries) ∧
    (∀ label ∈ optionLabels, ∃ t, entries.lookup label = some (.str t) ∧ t ≠ "") ∧
    members.lookup "correctAnswer" = some (.str answer) ∧ answer ∈ optionLabels ∧
    (members.lookup "explanation" = none ∨ ∃ e, members.lookup "explanation" = some (.str e))

/-- A quiz of the data model: `questions` is a non-empty sequence of questions
of the data model. -/
def QuizConformsWith (idOk : Int → Prop) (quiz : JsValue) : Prop :=
  ∃ members items,
    quiz = .obj members ∧ members.lookup "questions" = some (.arr items) ∧
    items ≠ [] ∧ ∀ q ∈ items, QuestionConformsWith idOk q

/-- The data model as the specification words it: any integer is an `id`. -/
def QuizConforms (quiz : JsValue) : Prop :=
  QuizConformsWith (fun _ => True) quiz

/-- The sample quiz with its question numbered 0. -/
def zeroIdQuiz : JsValue :=
  .obj [("title", .str "Quiz from Study Material"), ("difficulty", .str "easy"),
    ("totalQuestions", .num 1),
    ("questions", .arr [.obj [("id", .num 0), ("question", .str "What is the sun?"),
      ("options", .obj [("A", .str "A star"), ("B", .str "A planet"),
        ("C", .str "A moon"), ("D", .str "A comet")]),
      ("correctAnswer", .str "A"), ("explanation", .str "The sun is a star.")]])]

/-! ## `DocumentProcessor.cleanText` and `validateText` -/

/-- The regular-expression class `\s`: the white space and line terminator
characters of ECMAScript, also the set `trim()` removes. -/
def isJsSpace (c : Char) : Bool :=
  let n := c.toNat
  n == 0x09 || n == 0x0A || n == 0x0B || n == 0x0C || n == 0x0D || n == 0x20 ||
  n == 0xA0 || n == 0x1680 || (0x2000 ≤ n && n ≤ 0x200A) || n == 0x2028 ||
  n == 0x2029 || n == 0x202F || n == 0x205F || n == 0x3000 || n == 0xFEFF

/-- The regular-expression class `\w`: ASCII letters, digits and underscore. -/
def isWordChar (c : Char) : Bool :=
  let n := c.toNat
  (0x41 ≤ n && n ≤ 0x5A) || (0x61 ≤ n && n ≤ 0x7A) || (0x30 ≤ n && n ≤ 0x39) || n == 0x5F

/-- The characters kept by `/[^\w\s.,;:!?()-]/g`: the complement of the class. -/
def isAllowed (c : Char) : Bool :=
  isWordChar c || isJsSpace c || c == '.' || c == ',' || c == ';' || c == ':' ||
  c == '!' || c == '?' || c == '(' || c == ')' || c == '-'

/-- The scan of `.replace(/p+/g, r)` for a character class `p`: every maximal run
of characters of the class becomes one `r`. `inRun` says that the previous
character belonged to the run being replaced. -/
def replaceRunsFrom (p : Char → Bool) (r : Char) : Bool → List Char → List Char
  | _, [] => []
  | inRun, c :: cs =>
    if p c then
      if inRun then replaceRunsFrom p r true cs else r :: replaceRunsFrom p r true cs
    else c :: replaceRunsFrom p r false cs

/-- The call `.replace(/p+/g, r)`. -/
def replaceRuns (p : Char → Bool) (r : Char) (text : List Char) : List Char :=
  replaceRunsFrom p r false text

/-- The builtin `.trim()`. -/
def trim (text : List Char) : List Char :=
  ((text.dropWhile isJsSpace).reverse.dropWhile isJsSpace).reverse

/-- The chain of `cleanText` on the characters of a string (lines 52-56). -/
def cleanChars (text : List Char) : List Char :=
  trim
    (List.filter isAllowed
      (replaceRuns (fun c => c == '\n') '\n'
        (replaceRuns isJsSpace ' ' text)))

/-- The method `cleanText(text)` (lines 47-57). -/
def cleanText (text : JsValue) : String :=
  match text with
  | .str s => if s == "" then "" else String.mk (cleanChars s.data)
  | _ => ""

/-- The method `validateText(text)` (lines 60-67). -/
def validateText (text : JsValue) : Bool :=
  match text with
  | .str s =>
    if s == "" then false
    else decide ((cleanText (.str s)).length ≥ 100)
  | _ => false

/-- Text in which every white-space character is a blank and no two white-space
characters are adjacent; `afterSpace` says that a white-space character comes
right before the text. -/
def singleSpaced : Bool → List Char → Bool
  | _, [] => true
  | afterSpace, c :: cs =>
    if isJsSpace c then c == ' ' && !afterSpace && singleSpaced true cs
    else singleSpaced false cs

/-! ## The response parser of `generateQuiz` (lines 55-71) -/

/-- The match of `[\s\S]*\}` at the head of the text, as the backtracking
matcher finds it: the star takes a character and goes on when that leads to a
match, and otherwise the `\}` has to match right here. -/
def matchToClose : List Char → Option (List Char)
  | [] => none
  | c :: cs =>
    match matchToClose cs with
    | some taken => some (c :: taken)
    | none => if c == '}' then some [c] else none

/-- The value `jsonMatch[0]` of `aiResponse.match(/\{[\s\S]*\}/)`, or `none` when
there is no match: the positions are tried from the left, and a position
matches when it holds `{` and `[\s\S]*\}` matches after it. -/
def matchBraceSpan : List Char → Option (List Char)
  | [] => none
  | c :: cs =>
    if c == '{' then
      match matchToClose cs with
      | some taken => some (c :: taken)
      | none => matchBraceSpan cs
    else matchBraceSpan cs

/-- The call `text.substring(0, n)`. -/
def substringTo (text : String) (n : Nat) : String :=
  String.mk (text.data.take n)

/-- The error thrown on line 69. -/
def unparsableResponse (aiResponse : String) : JsError :=
  .error ("Failed to parse quiz JSON from OpenAI response: " ++ substringTo aiResponse 500)

/-- Lines 55-71: the candidate recovered from the completion text `aiResponse`.
`parse` stands for the builtin `JSON.parse`, with `none` for its SyntaxError. -/
def parseResponse (parse : String → Option JsValue) (aiResponse : String) :
    Except JsError JsValue :=
  match parse aiResponse with
  | some quiz => .ok quiz
  | none =>
    match matchBraceSpan aiResponse.data with
    | some jsonMatch =>
      match parse (String.mk jsonMatch) with
      | some quiz => .ok quiz
      | none => .error (.syntaxError (String.mk jsonMatch))
    | none => .error (unparsableResponse aiResponse)

/-- The `catch` block of `generateQuiz` (lines 79-102): what is thrown in place
of the caught `error`. -/
def handleFailure (error : JsError) : JsError :=
  match error with
  | .axios (some status) _ _ =>
    if status == 401 then .error "Invalid OpenAI API key. Please check your API key."
    else if status == 429 then .error "OpenAI API rate limit exceeded. Please try again later."
    else if status == 402 then .error "OpenAI API quota exceeded. Please check your billing."
    else .generationFailed error
  | .axios none (some code) _ =>
    if code == "ECONNABORTED" then .error "OpenAI API request timed out. Please try again."
    else .generationFailed error
  | _ => .generationFailed error

/-- Lines 51-77 under the `catch` of lines 79-102: what `generateQuiz` returns or
throws once the completion text `aiResponse` has arrived. -/
def quizFromResponse (parse : String → Option JsValue) (aiResponse : String) :
    Except JsError JsValue :=
  match parseResponse parse aiResponse with
  | .error e => .error (handleFailure e)
  | .ok quiz =>
    match validateQuiz quiz with
    | .error e => .error (handleFailure e)
    | .ok _ => .ok quiz

/-! ## A reference reading of `JSON.parse`

The theorems on the response parser hold for any strict parser. For concrete
completion texts the grammar of JSON (ECMA-404) is read by `jsonParse`, on
texts whose numbers are integer literals and whose `\u` escapes are not
surrogates (the numbers and characters of this model). -/

/-- JSON white space: blank, tab, line feed, carriage return. -/
def isJsonSpace (c : Char) : Bool :=
  c == ' ' || c == '\t' || c == '\n' || c == '\r'

/-- Drop leading JSON white space. -/
def skipSpace (text : List Char) : List Char :=
  text.dropWhile isJsonSpace

/-- The value of a hexadecimal digit. -/
def hexValue (c : Char) : Option Nat :=
  let n := c.toNat
  if 0x30 ≤ n ∧ n ≤ 0x39 then some (n - 0x30)
  else if 0x41 ≤ n ∧ n ≤ 0x46 then some (n - 0x41 + 10)
  else if 0x61 ≤ n ∧ n ≤ 0x66 then some (n - 0x61 + 10)
  else none

/-- The character of a `\u` escape with the four hexadecimal digits `a b c d`,
when it is not a surrogate. -/
def unicodeEscape (a b c d : Char) : Option Char :=
  match hexValue a, hexValue b, hexValue c, hexValue d with
  | some x, some y, some z, some w =>
    let n := ((x * 16 + y) * 16 + z) * 16 + w
    if 0xD800 ≤ n ∧ n ≤ 0xDFFF then none else some (Char.ofNat n)
  | _, _, _, _ => none

/-- The characters of a JSON string after its opening quote, up to the closing
quote, with the rest of the text. `acc` holds the characters read so far. -/
def parseStringBody : List Char → List Char → Option (List Char × List Char)
  | [], _ => none
  | '"' :: rest, acc => some (acc, rest)
  | '\\' :: '"' :: rest, acc => parseStringBody rest (acc ++ ['"'])
  | '\\' :: '\\' :: rest, acc => parseStringBody rest (acc ++ ['\\'])
  | '\\' :: '/' :: rest, acc => parseStringBody rest (acc ++ ['/'])
  | '\\' :: 'b' :: rest, acc => parseStringBody rest (acc ++ [Char.ofNat 8])
  | '\\' :: 'f' :: rest, acc => parseStringBody rest (acc ++ [Char.ofNat 12])
  | '\\' :: 'n' :: rest, acc => parseStringBody rest (acc ++ ['\n'])
  | '\\' :: 'r' :: rest, acc => parseStringBody rest (acc ++ ['\r'])
  | '\\' :: 't' :: rest, acc => parseStringBody rest (acc ++ ['\t'])
  | '\\' :: 'u' :: a :: b :: c :: d :: rest, acc =>
    match unicodeEscape a b c d with
    | some ch => parseStringBody rest (acc ++ [ch])
    | none => none
  | '\\' :: _, _ => none
  | c :: rest, acc => if c.toNat < 0x20 then none else parseStringBody rest (acc ++ [c])

/-- The value of a run of decimal digits read after `acc`. -/
def digitsValue (digits : List Char) (acc : Nat) : Nat :=
  digits.foldl (fun n c => n * 10 + (c.toNat - 0x30)) acc

/-- An unsigned JSON integer at the head of the text: `0`, or a digit from 1 to
9 and any digits; `none` when a fraction or an exponent follows. -/
def parseNatural (text : List Char) : Option (Nat × List Char) :=
  match text with
  | [] => none
  | c :: rest =>
    if !c.isDigit then none
    else
      let digits := if c == '0' then [] else rest.takeWhile Char.isDigit
      let after := if c == '0' then rest else rest.dropWhile Char.isDigit
      match after with
      | '.' :: _ => none
      | 'e' :: _ => none
      | 'E' :: _ => none
      | _ => some (digitsValue (c :: digits) 0, after)

/-- A JSON number at the head of the text. -/
def parseNumber (text : List Char) : Option (JsValue × List Char) :=
  match text with
  | '-' :: rest =>
    match parseNatural rest with
    | some (n, after) => some (.num (-(n : Int)), after)
    | none => none
  | _ =>
    match parseNatural text with
    | some (n, after) => some (.num (n : Int), after)
    | none => none

/-- Set member `key` of an object under construction: a repeated key keeps its
place and takes the later value, as in `JSON.parse`. -/
def setMember (key : String) (value : JsValue) :
    List (String × JsValue) → List (String × JsValue)
  | [] => [(key, value)]
  | (k, v) :: rest =>
    if k == key then (k, value) :: rest else (k, v) :: setMember key value rest

mutual
/-- A JSON value at the head of the text (after white space), with the rest. -/
def parseValue : Nat → List Char → Option (JsValue × List Char)
  | 0, _ => none
  | fuel + 1, text =>
    match skipSpace text with
    | '{' :: rest =>
      match skipSpace rest with
      | '}' :: after => some (.obj [], after)
      | members => parseMembers fuel members []
    | '[' :: rest =>
      match skipSpace rest with
      | ']' :: after => some (.arr [], after)
      | items => parseElements fuel items []
    | '"' :: rest =>
      match parseStringBody rest [] with
      | some (s, after) => some (.str (String.mk s), after)
      | none => none
    | 't' :: 'r' :: 'u' :: 'e' :: after => some (.bool true, after)
    | 'f' :: 'a' :: 'l' :: 's' :: 'e' :: after => some (.bool false, after)
    | 'n' :: 'u' :: 'l' :: 'l' :: after => some (.null, after)
    | other => parseNumber other
/-- The elements of a JSON array after `[`, up to `]`, with the rest. -/
def parseElements : Nat → List Char → List JsValue → Option (JsValue × List Char)
  | 0, _, _ => none
  | fuel + 1, text, acc =>
    match parseValue fuel text with
    | none => none
    | some (value, rest) =>
      match skipSpace rest with
      | ',' :: more => parseElements fuel more (acc ++ [value])
      | ']' :: after => some (.arr (acc ++ [value]), after)
      | _ => none
/-- The members of a JSON object after `{`, up to `}`, with the rest. -/
def parseMembers : Nat → List Char → List (String × JsValue) → Option (JsValue × List Char)
  | 0, _, _ => none
  | fuel + 1, text, acc =>
    match skipSpace text with
    | '"' :: rest =>
      match parseStringBody rest [] with
      | none => none
      | some (key, afterKey) =>
        match skipSpace afterKey with
        | ':' :: afterColon =>
          match parseValue fuel afterColon with
          | none => none
          | some (value, afterValue) =>
            match skipSpace afterValue with
            | ',' :: more => parseMembers fuel more (setMember (String.mk key) value acc)
            | '}' :: after => some (.obj (setMember (String.mk key) value acc), after)
            | _ => none
        | _ => none
    | _ => none
end

/-- The reference reading of `JSON.parse(text)`: one JSON value between
optional white space, `none` for a SyntaxError. Every call of the descent takes
a character before the next but one, so twice the length of the text is fuel
enough. -/
def jsonParse (text : String) : Option JsValue :=
  match parseValue (2 * text.length + 2) text.data with
  | some (value, rest) => if (skipSpace rest).isEmpty then some value else none
  | none => none

/-- The text holds a `{` followed later by a `}`. -/
def HasBraceSpan (text : List Char) : Prop :=
  ∃ a b c, text = a ++ '{' :: (b ++ '}' :: c)

/-- The substring `span` of the text runs from its first `{` to its last `}`,
both included. -/
def IsOutermostSpan (text span : List Char) : Prop :=
  ∃ before inner after,
    text = before ++ '{' :: (inner ++ '}' :: after) ∧
    '{' ∉ before ∧ '}' ∉ after ∧ span = '{' :: (inner ++ ['}'])

/-! ## `QuizGenerator.buildPrompt` (lines 105-150) -/

/-- The template of `buildPrompt` up to the first `${difficulty}` (line 112-113). -/
def promptOpening : String :=
  "\n" ++
  "Based on the following study material, create a "

/-- The template between `${difficulty}` and `${questionCount}` on line 113. -/
def promptAfterDifficulty : String :=
  " difficulty quiz with exactly "

/-- The template from line 113 to the study material on line 117. -/
def promptBeforeMaterial : String :=
  " multiple-choice questions.\n" ++
  "\n" ++
  "Study Material:\n" ++
  "\"\"\"\n"

/-- The template from the study material on line 117 to the end of line 120: the
note after the material is template text. -/
def promptMaterialNote : String :=
  " // Limit text to avoid token limits\n" ++
  "\"\"\"\n" ++
  "\n" ++
  "Requirements:\n"

/-- The template from the study material on line 117 to the instruction on line 121. -/
def promptAfterMaterial : String :=
  promptMaterialNote ++ "- "

/-- The template from line 122 to the second `${difficulty}` on line 131. -/
def promptRulesTail : String :=
  "- Each question should have exactly 4 options (A, B, C, D)\n" ++
  "- Only one option should be correct\n" ++
  "- Questions should be diverse and cover different parts of the material\n" ++
  "- Avoid questions that are too obvious or too obscure\n" ++
  "- Make sure all questions are answerable based on the provided material\n" ++
  "\n" ++
  "Return the response in this exact JSON format:\n" ++
  "\x7b\n" ++
  "  \"title\": \"Quiz from Study Material\",\n" ++
  "  \"difficulty\": \""

/-- The template from the instruction on line 121 to the second `${difficulty}` on
line 131. -/
def promptRules : String :=
  "\n" ++ promptRulesTail

/-- The template between `${difficulty}` and `${questionCount}` on lines 131-132. -/
def promptBeforeTotal : String :=
  "\",\n" ++
  "  \"totalQuestions\": "

/-- The template from line 132 to its end on line 149. -/
def promptShape : String :=
  ",\n" ++
  "  \"questions\": [\n" ++
  "    \x7b\n" ++
  "      \"id\": 1,\n" ++
  "      \"question\": \"Your question here?\",\n" ++
  "      \"options\": \x7b\n" ++
  "        \"A\": \"First option\",\n" ++
  "        \"B\": \"Second option\", \n" ++
  "        \"C\": \"Third option\",\n" ++
  "        \"D\": \"Fourth option\"\n" ++
  "      \x7d,\n" ++
  "      \"correctAnswer\": \"A\",\n" ++
  "      \"explanation\": \"Brief explanation of why this is correct\"\n" ++
  "    \x7d\n" ++
  "  ]\n" ++
  "\x7d\n" ++
  "\n" ++
  "Make sure to return valid JSON only, no additional text or markdown formatting."

/-- The number `generateQuiz` receives as `questionCount`: what `parseInt` yields,
an integer or `NaN`. -/
inductive QuestionCount where
  | nan
  | int (n : Int)

/-- The text of `questionCount` in the template: decimal digits for an integer
(of absolute value below 10^21), `NaN` otherwise. -/
def QuestionCount.render : QuestionCount → String
  | .nan => "NaN"
  | .int n => toString n

/-- What reading a key of the object literal `difficultyInstructions` yields. -/
inductive TableEntry where
  /-- One of the three instructions of the table. -/
  | instruction (text : String)
  /-- No such property. -/
  | undefined
  /-- A property inherited from `Object.prototype`, with its text in a template. -/
  | inherited (text : String)

/-- The read `difficultyInstructions[key]` (lines 106-110, 121). The table is an
object literal, so besides its three keys it answers to the properties of
`Object.prototype`; of those only `constructor` and `__proto__` are spelled in
lower case, the only spelling `toLowerCase()` can produce. -/
def difficultyInstructions (key : String) : TableEntry :=
  if key == "easy" then
    .instruction "Create simple, straightforward questions that test basic understanding and recall of key facts."
  else if key == "medium" then
    .instruction "Create moderate difficulty questions that require some analysis and understanding of concepts."
  else if key == "hard" then
    .instruction "Create challenging questions that require critical thinking, analysis, and deep understanding of the material."
  else if key == "constructor" then .inherited "function Object() \x7b [native code] \x7d"
  else if key == "__proto__" then .inherited "[object Object]"
  else .undefined

/-- The text of a table entry in the template. -/
def TableEntry.render : TableEntry → String
  | .instruction text => text
  | .undefined => "undefined"
  | .inherited text => text

/-- The builtin `toLowerCase()` on the ASCII letters. A character outside ASCII
never becomes a letter of the keys and extensions compared here, so the table
read and the dispatch on the extension are the same as with the full case
mapping. -/
def toLowerCase (text : String) : String :=
  String.mk (text.data.map Char.toLower)

/-- The method `buildPrompt(documentText, difficulty, questionCount)`
(lines 105-150). -/
def buildPrompt (documentText difficulty : String) (questionCount : QuestionCount) : String :=
  promptOpening ++ difficulty ++ promptAfterDifficulty ++ questionCount.render ++
  promptBeforeMaterial ++ substringTo documentText 8000 ++ promptAfterMaterial ++
  (difficultyInstructions (toLowerCase difficulty)).render ++ promptRules ++
  difficulty ++ promptBeforeTotal ++ questionCount.render ++ promptShape

/-- The line of the prompt that carries the per-difficulty instruction. -/
def instructionLine (difficulty : String) : String :=
  "- " ++ (difficultyInstructions (toLowerCase difficulty)).render ++ "\n"

/-- The prompt before the study material. -/
def promptBefore (difficulty : String) (questionCount : QuestionCount) : String :=
  promptOpening ++ difficulty ++ promptAfterDifficulty ++ questionCount.render ++
  promptBeforeMaterial

/-- The prompt after the per-difficulty instruction line. -/
def promptClosing (difficulty : String) (questionCount : QuestionCount) : String :=
  promptRulesTail ++ difficulty ++ promptBeforeTotal ++ questionCount.render ++ promptShape

/-- The prompt after the study material. -/
def promptAfter (difficulty : String) (questionCount : QuestionCount) : String :=
  promptMaterialNote ++ instructionLine difficulty ++ promptClosing difficulty questionCount

/-! ## The ids of a quiz -/

/-- The own member `key` of an object, if there is one. -/
def memberOf (v : JsValue) (key : String) : Option JsValue :=
  match v with
  | .obj members => members.lookup key
  | _ => none

/-- The `id` members of the questions of a quiz, in order. -/
def questionIds (quiz : JsValue) : List (Option JsValue) :=
  match memberOf quiz "questions" with
  | some (.arr items) => items.map (fun question => memberOf question "id")
  | _ => []

/-- A second question that reuses the id of `sampleQuestion`. -/
def orbitQuestion : JsValue :=
  .obj [("id", .num 1), ("question", .str "How long does the Earth take to orbit the sun?"),
    ("options", .obj [("A", .str "A day"), ("B", .str "A month"),
      ("C", .str "A year"), ("D", .str "A century")]),
    ("correctAnswer", .str "C"), ("explanation", .str "The Earth orbits the sun once every year.")]

/-! ## `QuizGenerator.generateQuiz` (lines 9-103) -/

/-- The request of `axios.post` (lines 28-48): the endpoint, the body and the
configuration. The temperature 0.7 is kept in tenths, the timeout in
milliseconds. -/
structure CompletionRequest where
  url : String
  model : String
  systemContent : String
  userContent : String
  maxTokens : Nat
  temperatureTenths : Nat
  authorization : String
  contentType : String
  timeout : Nat

/-- What the code takes from its platform: the environment variables, the
network, and the builtins whose text is fixed by the engine. -/
structure Platform where
  /-- The variable `process.env.OPENAI_API_KEY`, read by the constructor. -/
  apiKey : Option String
  /-- The call `axios.post`: `response.data`, or the error it throws. -/
  post : CompletionRequest → Except JsError JsValue
  /-- The builtin `JSON.parse`, `none` for its SyntaxError. -/
  jsonParse : String → Option JsValue
  /-- The builtin `parseInt`. -/
  parseInt : String → QuestionCount
  /-- The `message` of a TypeError or SyntaxError raised by the engine. -/
  nativeMessage : JsError → String
  /-- The test `process.env.NODE_ENV === 'development'`. -/
  development : Bool

/-- The property `error.message`. -/
def errorMessage (native : JsError → String) : JsError → String
  | .error message => message
  | .axios _ _ message => message
  | .generationFailed cause => "Quiz generation failed: " ++ errorMessage native cause
  | .typeError property => native (.typeError property)
  | .syntaxError text => native (.syntaxError text)

/-- The read `v[0]`. -/
def getFirst (v : JsValue) : Except JsError JsValue :=
  match v with
  | .undefined => .error (.typeError "0")
  | .null => .error (.typeError "0")
  | .arr (x :: _) => .ok x
  | .obj members =>
    match members.lookup "0" with
    | some x => .ok x
    | none => .ok .undefined
  | .str s =>
    match s.data with
    | c :: _ => .ok (.str (String.mk [c]))
    | [] => .ok .undefined
  | _ => .ok .undefined

/-- The read `response.data.choices[0].message.content` of line 51. -/
def completionContent (data : JsValue) : Except JsError JsValue :=
  match getProp data "choices" with
  | .error e => .error e
  | .ok choices =>
    match getFirst choices with
    | .error e => .error e
    | .ok first =>
      match getProp first "message" with
      | .error e => .error e
      | .ok message => getProp message "content"

/-- The request built on lines 28-48 for the key and the prompt. -/
def completionRequest (apiKey userContent : String) : CompletionRequest where
  url := "https://api.openai.com/v1/chat/completions"
  model := "gpt-3.5-turbo"
  systemContent := "You are an expert educator who creates engaging and accurate quizzes based on study materials. Always respond with valid JSON format."
  userContent := userContent
  maxTokens := 3000
  temperatureTenths := 7
  authorization := "Bearer " ++ apiKey
  contentType := "application/json"
  timeout := 30000

/-- The test `apiKey.startsWith('sk-')`. -/
def startsWithSk (apiKey : String) : Bool :=
  "sk-".data.isPrefixOf apiKey.data

/-- A run of `generateQuiz`: what it returns or throws, and the requests it sent. -/
structure Outcome where
  result : Except JsError JsValue
  requests : List CompletionRequest

/-- The method `generateQuiz(documentText, difficulty, questionCount)`
(lines 9-103). -/
def generateQuiz (P : Platform) (documentText difficulty : String)
    (questionCount : QuestionCount) : Outcome :=
  match P.apiKey with
  | none =>
    ⟨.error (handleFailure (.error "OpenAI API key is not set in environment variables")), []⟩
  | some apiKey =>
    if apiKey == "" then
      ⟨.error (handleFailure (.error "OpenAI API key is not set in environment variables")), []⟩
    else if !startsWithSk apiKey then
      ⟨.error (handleFailure
        (.error "OpenAI API key appears to be invalid (should start with sk-)")), []⟩
    else
      let request := completionRequest apiKey (buildPrompt documentText difficulty questionCount)
      match P.post request with
      | .error e => ⟨.error (handleFailure e), [request]⟩
      | .ok data =>
        match completionContent data with
        | .error e => ⟨.error (handleFailure e), [request]⟩
        | .ok (.str aiResponse) => ⟨quizFromResponse P.jsonParse aiResponse, [request]⟩
        | .ok _ => ⟨.error (handleFailure (.typeError "substring")), [request]⟩

/-- The error has a response with HTTP status `status`. -/
def HasStatus (e : JsError) (status : Nat) : Prop :=
  ∃ code message, e = .axios (some status) code message

/-- The error has no response and the code `ECONNABORTED`. -/
def IsTimeout (e : JsError) : Prop :=
  ∃ message, e = .axios none (some "ECONNABORTED") message

/-! ## The upload handler of `server.js` (lines 111-200) -/

/-- The file multer stored for the request. -/
structure UploadedFile where
  path : String
  originalname : String
  size : Nat

/-- The JSON body of a response of the handler. The success body leaves out
`generatedAt`, the time of the clock. -/
inductive ResponseBody where
  /-- The body `{ error }`. -/
  | error (error : String)
  /-- The body `{ error, details }`. -/
  | failure (error details : String)
  /-- The body `{ success: true, quiz, metadata }`. -/
  | success (quiz : JsValue) (filename difficulty : String) (questionCount : QuestionCount)
      (extractedTextLength : Nat)

/-- A response: the status code and the body. -/
structure HttpResponse where
  status : Nat
  body : ResponseBody

/-- A run of the handler: its response, whether it called `generateQuiz`, and
the completion requests sent. -/
structure HandlerRun where
  response : HttpResponse
  generated : Bool
  requests : List CompletionRequest

/-- The response of the `catch` block (lines 185-199). -/
def internalError (P : Platform) (e : JsError) : HttpResponse where
  status := 500
  body := .failure "Failed to process document and generate quiz"
    (if P.development then errorMessage P.nativeMessage e else "Internal server error")

/-- The rejection of lines 140-145. -/
def noTextRejection : HttpResponse where
  status := 400
  body := .error "Could not extract text from the document"

/-- The rejection of lines 149-154. -/
def insufficientTextRejection : HttpResponse where
  status := 400
  body := .error
    "Document does not contain enough text for quiz generation (minimum 100 characters required)"

/-- The test `!documentText || documentText.trim().length === 0` of line 140. -/
def isBlank (documentText : String) : Bool :=
  documentText == "" || (trim documentText.data).length == 0

/-- The handler of `POST /api/upload-document` once multer has stored the upload
(lines 111-200). `extractText` is `documentProcessor.extractText` on the stored
file, `file` is `req.file`, `difficulty` and `questionCount` are the fields of
`req.body`. The removal of the stored file is left out. -/
def uploadDocument (P : Platform) (extractText : String → String → Except JsError String)
    (file : Option UploadedFile) (difficulty questionCount : Option String) : HandlerRun :=
  match file with
  | none => ⟨⟨400, .error "No file uploaded"⟩, false, []⟩
  | some f =>
    match difficulty, questionCount with
    | some d, some q =>
      if d == "" || q == "" then
        ⟨⟨400, .error "Missing required parameters: difficulty and questionCount"⟩, false, []⟩
      else
        match extractText f.path f.originalname with
        | .error e => ⟨internalError P e, false, []⟩
        | .ok documentText =>
          if isBlank documentText then ⟨noTextRejection, false, []⟩
          else if !validateText (.str documentText) then ⟨insufficientTextRejection, false, []⟩
          else
            let outcome := generateQuiz P documentText d (P.parseInt q)
            match outcome.result with
            | .error e => ⟨internalError P e, true, outcome.requests⟩
            | .ok quiz =>
              ⟨⟨200, .success quiz f.originalname d (P.parseInt q) documentText.length⟩,
                true, outcome.requests⟩
    | _, _ =>
      ⟨⟨400, .error "Missing required parameters: difficulty and questionCount"⟩, false, []⟩

/-! ## A sample platform -/

/-- A completion reply: a valid one-question quiz as JSON text. -/
def sampleReply : String :=
  "\x7b\"title\": \"Quiz from Study Material\", \"difficulty\": \"easy\", " ++
  "\"totalQuestions\": 1, \"questions\": [\x7b\"id\": 1, " ++
  "\"question\": \"What is the sun?\", " ++
  "\"options\": \x7b\"A\": \"A star\", \"B\": \"A planet\", " ++
  "\"C\": \"A moon\", \"D\": \"A comet\"\x7d, " ++
  "\"correctAnswer\": \"A\", \"explanation\": \"The sun is a star.\"\x7d]\x7d"

/-- The response data of a completion whose first choice carries `content`. -/
def completionData (content : String) : JsValue :=
  .obj [("choices", .arr [.obj [("message",
    .obj [("role", .str "assistant"), ("content", .str content)])]])]

/-- A platform with a well-formed key whose completion service answers every
request with `reply`; its `parseInt` reads decimal integers. -/
def mockPlatform (reply : Except JsError JsValue) : Platform where
  apiKey := some "sk-test"
  post := fun _ => reply
  jsonParse := jsonParse
  parseInt := fun text =>
    match text.toInt? with
    | some n => .int n
    | none => .nan
  nativeMessage := fun _ => "native error"
  development := true

/-- The sample text of the test route of `server.js` (line 77). -/
def sunText : String :=
  "The sun is a star. It provides light and heat to Earth. The Earth orbits around the sun once every year."

/-- A text that normalises to 100 characters with two adjacent blanks: the `#`
between the blanks is stripped after the white space was collapsed. -/
def hashText : String :=
  String.mk ('a' :: ' ' :: '#' :: ' ' :: List.replicate 97 'b')

/-! ## `DocumentProcessor.extractText` (lines 7-44) -/

/-- What the extraction takes from its platform and libraries. -/
structure Readers where
  /-- The builtin `path.extname`. -/
  extname : String → String
  /-- The text `data.text` of `pdfParse(fs.readFileSync(filePath))`, or what the
  read or the parser throws. -/
  pdfText : String → Except JsError JsValue
  /-- The text `result.value` of `mammoth.extractRawText`, or what it throws. -/
  docxText : String → Except JsError JsValue

/-- The method `extractFromPDF(filePath)` (lines 27-35). -/
def extractFromPDF (native : JsError → String) (R : Readers) (filePath : String) :
    Except JsError String :=
  match R.pdfText filePath with
  | .ok text => .ok (cleanText text)
  | .error e => .error (.error ("PDF extraction failed: " ++ errorMessage native e))

/-- The method `extractFromDOCX(filePath)` (lines 37-44). -/
def extractFromDOCX (native : JsError → String) (R : Readers) (filePath : String) :
    Except JsError String :=
  match R.docxText filePath with
  | .ok text => .ok (cleanText text)
  | .error e => .error (.error ("DOCX extraction failed: " ++ errorMessage native e))

/-- The `switch` of `extractText` (lines 11-20) on the lower-cased extension. -/
def extractByExtension (native : JsError → String) (R : Readers) (filePath fileExtension : String) :
    Except JsError String :=
  if fileExtension == ".pdf" then extractFromPDF native R filePath
  else if fileExtension == ".docx" then extractFromDOCX native R filePath
  else if fileExtension == ".pptx" then
    .error (.error "PPTX support is temporarily disabled. Please use PDF or DOCX files.")
  else .error (.error ("Unsupported file type: " ++ fileExtension))

/-- The method `extractText(filePath, originalName)` (lines 7-25). -/
def extractText (native : JsError → String) (R : Readers) (filePath originalName : String) :
    Except JsError String :=
  match extractByExtension native R filePath (toLowerCase (R.extname originalName)) with
  | .ok text => .ok text
  | .error e =>
    .error (.error ("Failed to extract text from " ++ toLowerCase (R.extname originalName) ++
      " file: " ++ errorMessage native e))

/-- The state of the scan of `path.extname` in Node (POSIX flavour). -/
structure ExtnameState where
  startDot : Option Nat
  startPart : Nat
  endPos : Option Nat
  matchedSlash : Bool
  preDotState : Int

/-- The loop of `path.extname` over the characters from the last to the first,
each with its position. -/
def extnameScan : List (Nat × Char) → ExtnameState → ExtnameState
  | [], s => s
  | (i, c) :: rest, s =>
    if c == '/' then
      if !s.matchedSlash then { s with startPart := i + 1 }
      else extnameScan rest s
    else
      let s1 := if s.endPos.isNone then { s with matchedSlash := false, endPos := some (i + 1) }
        else s
      let s2 :=
        if c == '.' then
          if s1.startDot.isNone then { s1 with startDot := some i }
          else if s1.preDotState != 1 then { s1 with preDotState := 1 }
          else s1
        else if s1.startDot.isSome then { s1 with preDotState := -1 }
        else s1
      extnameScan rest s2

/-- A reference reading of `path.extname` (Node, POSIX): the part of the last
path segment from its last `.`, empty when there is none or the segment only
starts with it. -/
def extname (path : String) : String :=
  let s := extnameScan ((List.range path.length).zip path.data).reverse
    ⟨none, 0, none, true, 0⟩
  match s.startDot, s.endPos with
  | some startDot, some endPos =>
    if s.preDotState == 0 ||
        (s.preDotState == 1 && startDot == endPos - 1 && startDot == s.startPart + 1) then ""
    else String.mk ((path.data.take endPos).drop startDot)
  | _, _ => ""

/-- Readers over the reference `extname` whose parsers yield the given texts. -/
def mockReaders (pdf docx : Except JsError JsValue) : Readers where
  extname := extname
  pdfText := fun _ => pdf
  docxText := fun _ => docx

/-! ## The quiz of `QuizInterface.js` (lines 227-324) -/

/-- The state of the component, without the timer: the index of the question
shown, the option picked, the answers recorded by index, whether the answer is
revealed, and whether the quiz was finished. -/
structure QuizState where
  currentQuestion : Int
  selectedAnswer : String
  userAnswers : List (Int × String)
  showAnswer : Bool
  isFinished : Bool

/-- The state of the first render (lines 227-232). -/
def QuizState.initial : QuizState where
  currentQuestion := 0
  selectedAnswer := ""
  userAnswers := []
  showAnswer := false
  isFinished := false

/-- The object `{...prev, [index]: answer}` of line 276: the entry of `index` is
replaced, or added when there is none. (The order of the entries is not read.) -/
def setAnswer (index : Int) (answer : String) : List (Int × String) → List (Int × String)
  | [] => [(index, answer)]
  | (i, a) :: rest =>
    if i == index then (i, answer) :: rest else (i, a) :: setAnswer index answer rest

/-- The read `userAnswers[index] || ''`. -/
def answerOrEmpty (userAnswers : List (Int × String)) (index : Int) : String :=
  match userAnswers.lookup index with
  | some answer => answer
  | none => ""

/-- The test `!!userAnswers[index]`. -/
def hasAnswer (userAnswers : List (Int × String)) (index : Int) : Bool :=
  match userAnswers.lookup index with
  | some answer => answer != ""
  | none => false

/-- The handlers a user can trigger. -/
inductive QuizAction where
  /-- The handler `handleAnswerSelect(answer)`. -/
  | select (answer : String)
  /-- The handler `handleAnswerSubmit()`. -/
  | submit
  /-- The handler `handleNext()`. -/
  | next
  /-- The handler `handlePrevious()`. -/
  | previous

/-- The handler `handleAnswerSelect` (lines 265-268). -/
def handleAnswerSelect (s : QuizState) (answer : String) : QuizState :=
  if s.showAnswer then s else { s with selectedAnswer := answer }

/-- The state updates of `handleAnswerSubmit` (lines 270-288); the toasts are
left out. -/
def handleAnswerSubmit (s : QuizState) : QuizState :=
  if s.selectedAnswer == "" then s
  else
    { s with
      userAnswers := setAnswer s.currentQuestion s.selectedAnswer s.userAnswers
      showAnswer := true }

/-- The state updates of `handleNext` (lines 290-313) for a quiz of
`totalQuestions` questions. -/
def handleNext (totalQuestions : Nat) (s : QuizState) : QuizState :=
  if s.currentQuestion < (totalQuestions : Int) - 1 then
    { s with
      currentQuestion := s.currentQuestion + 1
      selectedAnswer := answerOrEmpty s.userAnswers (s.currentQuestion + 1)
      showAnswer := false }
  else { s with isFinished := true }

/-- The handler `handlePrevious` (lines 315-321). -/
def handlePrevious (s : QuizState) : QuizState :=
  if s.currentQuestion > 0 then
    { s with
      currentQuestion := s.currentQuestion - 1
      selectedAnswer := answerOrEmpty s.userAnswers (s.currentQuestion - 1)
      showAnswer := hasAnswer s.userAnswers (s.currentQuestion - 1) }
  else s

/-- One action on the state of a quiz of `totalQuestions` questions. -/
def quizStep (totalQuestions : Nat) (s : QuizState) : QuizAction → QuizState
  | .select answer => handleAnswerSelect s answer
  | .submit => handleAnswerSubmit s
  | .next => handleNext totalQuestions s
  | .previous => handlePrevious s

/-- The state after a sequence of actions from the first render. -/
def quizRun (totalQuestions : Nat) (actions : List QuizAction) : QuizState :=
  actions.foldl (quizStep totalQuestions) QuizState.initial

/-- The read `questions[index]`. -/
def questionAt (questions : List JsValue) (index : Int) : JsValue :=
  if 0 ≤ index then
    match questions[index.toNat]? with
    | some question => question
    | none => .undefined
  else .undefined

/-- The invariant of the quiz of `totalQuestions` questions: the index shown and
every index recorded are from 0 to `totalQuestions - 1`, and no index is
recorded twice. -/
structure QuizInvariant (totalQuestions : Nat) (s : QuizState) : Prop where
  current_nonneg : 0 ≤ s.currentQuestion
  current_lt : s.currentQuestion < totalQuestions
  recorded : ∀ entry ∈ s.userAnswers, 0 ≤ entry.1 ∧ entry.1 < totalQuestions
  nodup : (s.userAnswers.map Prod.fst).Nodup

/-! ## The score: `handleNext` (lines 298-300) and `Results.js` (lines 230-231) -/

/-- The test `answer === v` for a recorded answer, which is a string. -/
def strictEqualsString (answer : String) (v : JsValue) : Bool :=
  match v with
  | .str s => answer == s
  | _ => false

/-- The callback of the filter on lines 298-300:
`answer === questions[questionIndex].correctAnswer`. -/
def answerIsCorrect (questions : List JsValue) (questionIndex : Int) (answer : String) :
    Except JsError Bool :=
  match getProp (questionAt questions questionIndex) "correctAnswer" with
  | .error e => .error e
  | .ok v => .ok (strictEqualsString answer v)

/-- The value `correctAnswers` of lines 298-300: the number of entries of
`userAnswers` that pass the filter. -/
def countCorrect (questions : List JsValue) : List (Int × String) → Except JsError Nat
  | [] => .ok 0
  | (questionIndex, answer) :: rest =>
    match answerIsCorrect questions questionIndex answer with
    | .error e => .error e
    | .ok passes =>
      match countCorrect questions rest with
      | .error e => .error e
      | .ok count => .ok (if passes then count + 1 else count)

/-- The recorded answer of question `index` equals the question's
`correctAnswer`. -/
def recordedCorrect (questions : List JsValue) (userAnswers : List (Int × String))
    (index : Nat) : Bool :=
  match userAnswers.lookup (index : Int), questions[index]? with
  | some answer, some question =>
    match memberOf question "correctAnswer" with
    | some v => strictEqualsString answer v
    | none => false
  | _, _ => false

/-- The number of question indices whose recorded answer equals that question's
`correctAnswer`. -/
def correctCount (questions : List JsValue) (userAnswers : List (Int × String)) : Nat :=
  ((List.range questions.length).filter (recordedCorrect questions userAnswers)).length

/-- What the score uses of the rounding `fl` of double arithmetic: it is
monotone and keeps the doubles 0, 1 and 100, as rounding to nearest does. -/
structure IsRounding (fl : ℚ → ℚ) : Prop where
  mono : Monotone fl
  zero : fl 0 = 0
  one : fl 1 = 1
  hundred : fl 100 = 100

/-- The value `Math.round((correctAnswers / totalQuestions) * 100)` of line 230
of `Results.js`: the division and the product are rounded by `fl`, and
`Math.round` takes the nearest integer, a half going up. -/
def percentage (fl : ℚ → ℚ) (correctAnswers totalQuestions : Nat) : Int :=
  ⌊fl (fl ((correctAnswers : ℚ) / (totalQuestions : ℚ)) * 100) + 1 / 2⌋

/-- The value `grade` of line 231 of `Results.js`. -/
def grade (percentage : Int) : String :=
  if percentage ≥ 80 then "Excellent"
  else if percentage ≥ 60 then "Good"
  else "Needs Improvement"

/-! # Theorems -/

/-! ## Lemmas on property reads -/

theorem present_of_truthy {v : JsValue} (h : truthy v = true) : Present v := by
  refine ⟨?_, ?_, ?_⟩ <;> intro hv <;> subst hv <;> simp [truthy] at h

theorem getProp_truthy {v x : JsValue} {key : String}
    (h : getProp v key = .ok x) (hx : truthy x = true) :
    ∃ members, v = .obj members ∧ members.lookup key = some x := by
  cases v with
  | obj members =>
    refine ⟨members, rfl, ?_⟩
    simp only [getProp] at h
    cases hl : members.lookup key with
    | none =>
      rw [hl] at h
      injection h with h
      subst h
      simp [truthy] at hx
    | some y =>
      rw [hl] at h
      injection h with h
      rw [h]
  | undefined => simp [getProp] at h
  | null => simp [getProp] at h
  | bool b => simp only [getProp] at h; injection h with h; subst h; simp [truthy] at hx
  | num n => simp only [getProp] at h; injection h with h; subst h; simp [truthy] at hx
  | str s => simp only [getProp] at h; injection h with h; subst h; simp [truthy] at hx
  | arr l => simp only [getProp] at h; injection h with h; subst h; simp [truthy] at hx

theorem anyFalsy_false {v : JsValue} {keys : List String}
    (h : anyFalsy v keys = .ok false) :
    ∀ key ∈ keys, ∃ x, getProp v key = .ok x ∧ truthy x = true := by
  induction keys with
  | nil => intro key hk; cases hk
  | cons k ks ih =>
    intro key hk
    simp only [anyFalsy] at h
    cases hg : getProp v k with
    | error e => rw [hg] at h; simp at h
    | ok x =>
      rw [hg] at h
      simp only at h
      by_cases ht : truthy x = true
      · rw [if_pos ht] at h
        rcases List.mem_cons.mp hk with rfl | hk
        · exact ⟨x, hg, ht⟩
        · exact ih h key hk
      · rw [if_neg ht] at h
        simp at h


theorem includesABCD_true {v : JsValue} (h : includesABCD v = true) :
    v = .str "A" ∨ v = .str "B" ∨ v = .str "C" ∨ v = .str "D" := by
  cases v with
  | str s =>
    simp only [includesABCD, Bool.or_eq_true, beq_iff_eq] at h
    rcases h with ((h | h) | h) | h <;> subst h <;> simp
  | undefined => simp [includesABCD] at h
  | null => simp [includesABCD] at h
  | bool b => simp [includesABCD] at h
  | num n => simp [includesABCD] at h
  | arr l => simp [includesABCD] at h
  | obj l => simp [includesABCD] at h

/-- What a passing run of the callback establishes, in terms of the reads it made. -/
theorem checkQuestion_ok {question : JsValue} {index : Nat}
    (h : checkQuestion question index = .ok ()) :
    anyFalsy question ["id", "question", "options", "correctAnswer"] = .ok false ∧
    ∃ options answer, getProp question "options" = .ok options ∧
      anyFalsy options ["A", "B", "C", "D"] = .ok false ∧
      getProp question "correctAnswer" = .ok answer ∧ includesABCD answer = true := by
  unfold checkQuestion at h
  split at h
  · simp at h
  · simp at h
  · rename_i h1
    refine ⟨h1, ?_⟩
    split at h
    · simp at h
    · rename_i options h2
      split at h
      · simp at h
      · simp at h
      · rename_i h3
        split at h
        · simp at h
        · rename_i answer h4
          refine ⟨options, answer, h2, h3, h4, ?_⟩
          by_cases hc : includesABCD answer = true
          · exact hc
          · rw [if_neg hc] at h
            simp at h

theorem questionShape_of_checkQuestion {question : JsValue} {index : Nat}
    (h : checkQuestion question index = .ok ()) : QuestionShape question := by
  obtain ⟨h1, options, answer, h2, h3, h4, h5⟩ := checkQuestion_ok h
  have hf := anyFalsy_false h1
  obtain ⟨id, hid, tid⟩ := hf "id" (by simp)
  obtain ⟨qt, hqt, tqt⟩ := hf "question" (by simp)
  obtain ⟨op, hop, top⟩ := hf "options" (by simp)
  obtain ⟨an, han, tan⟩ := hf "correctAnswer" (by simp)
  have e1 : op = options := by rw [hop] at h2; injection h2
  have e2 : an = answer := by rw [han] at h4; injection h4
  subst e1
  subst e2
  obtain ⟨members, hm, lid⟩ := getProp_truthy hid tid
  subst hm
  obtain ⟨_, hm2, lqt⟩ := getProp_truthy hqt tqt
  injection hm2 with hm2
  subst hm2
  obtain ⟨_, hm3, lop⟩ := getProp_truthy hop top
  injection hm3 with hm3
  subst hm3
  obtain ⟨_, hm4, lan⟩ := getProp_truthy han tan
  injection hm4 with hm4
  subst hm4
  have ho := anyFalsy_false h3
  obtain ⟨a, ha, ta⟩ := ho "A" (by simp)
  obtain ⟨entries, he, la⟩ := getProp_truthy ha ta
  subst he
  refine ⟨members, id, qt, .obj entries, an, rfl, lid, present_of_truthy tid, lqt,
    present_of_truthy tqt, lop, present_of_truthy top, lan, present_of_truthy tan,
    ⟨entries, rfl, ?_⟩, includesABCD_true h5⟩
  intro label hl
  obtain ⟨t, ht, tt⟩ := ho label (by simpa [optionLabels] using hl)
  obtain ⟨_, he2, lt⟩ := getProp_truthy ht tt
  injection he2 with he2
  subst he2
  exact ⟨t, lt, present_of_truthy tt⟩

theorem forEachQuestion_ok {items : List JsValue} {index : Nat}
    (h : forEachQuestion items index = .ok ()) :
    ∀ q ∈ items, ∃ i, checkQuestion q i = .ok () := by
  induction items generalizing index with
  | nil => intro q hq; cases hq
  | cons x xs ih =>
    intro q hq
    simp only [forEachQuestion] at h
    cases hc : checkQuestion x index with
    | error e => rw [hc] at h; simp at h
    | ok u =>
      rw [hc] at h
      rcases List.mem_cons.mp hq with rfl | hq
      · exact ⟨index, hc⟩
      · exact ih h q hq

/-- What an accepting run of `validateQuiz` establishes about the loop. -/
theorem validateQuiz_ok {quiz : JsValue} (h : validateQuiz quiz = .ok true) :
    ∃ members items, quiz = .obj members ∧ members.lookup "questions" = some (.arr items) ∧
      items ≠ [] ∧ forEachQuestion items 0 = .ok () := by
  unfold validateQuiz at h
  split at h
  · simp at h
  · split at h
    · simp at h
    · rename_i questions hq
      split at h
      · simp at h
      · rename_i hcond
        split at h
        · rename_i items
          split at h
          · simp at h
          · rename_i hlen
            split at h
            · simp at h
            · rename_i hloop
              obtain ⟨members, hm, hl⟩ := getProp_truthy hq (by simp [truthy])
              refine ⟨members, items, hm, hl, ?_, hloop⟩
              intro hnil
              subst hnil
              simp at hlen
        · simp at h

theorem quizShape_of_accepted {quiz : JsValue} (h : validateQuiz quiz = .ok true) :
    QuizShape quiz := by
  obtain ⟨members, items, hm, hl, hne, hloop⟩ := validateQuiz_ok h
  refine ⟨members, items, hm, hl, hne, ?_⟩
  intro q hq
  obtain ⟨i, hi⟩ := forEachQuestion_ok hloop q hq
  exact questionShape_of_checkQuestion hi

/-! ## The quiz validator -/

/-- C1: every candidate `validateQuiz` accepts is a non-null object whose
`questions` is a non-empty array of questions with present, non-empty `id`,
`question`, `options`, `correctAnswer`, a non-empty entry for each label A to D
and `correctAnswer` one of "A", "B", "C", "D"; a quiz with no question, one whose
question lacks option "D" and one whose `correctAnswer` is "E" are rejected. -/
theorem validateQuiz_sound :
    (∀ quiz, validateQuiz quiz = .ok true → QuizShape quiz) ∧
    validateQuiz (quizOf []) =
      .error (.error "Quiz must contain at least one question") ∧
    validateQuiz (quizOf [questionMissingD]) =
      .error (.error "Question 1 must have options A, B, C, and D") ∧
    validateQuiz (quizOf [questionAnswerE]) =
      .error (.error "Question 1 must have a correct answer of A, B, C, or D") := by
  exact ⟨fun _ h => quizShape_of_accepted h, rfl, rfl, rfl⟩

/-- The sample quiz is accepted, and has the shape C1 promises. -/
theorem validateQuiz_sound_witness :
    validateQuiz sampleQuiz = .ok true ∧ QuizShape sampleQuiz :=
  ⟨rfl, validateQuiz_sound.1 sampleQuiz rfl⟩

theorem anyFalsy_of_truthy {members : List (String × JsValue)} {keys : List String}
    (h : ∀ key ∈ keys, ∃ x, members.lookup key = some x ∧ truthy x = true) :
    anyFalsy (.obj members) keys = .ok false := by
  induction keys with
  | nil => rfl
  | cons k ks ih =>
    obtain ⟨x, hx, tx⟩ := h k (by simp)
    simp only [anyFalsy, getProp, hx, tx, if_true]
    exact ih (fun key hk => h key (List.mem_cons_of_mem _ hk))

theorem truthy_str {s : String} (h : s ≠ "") : truthy (.str s) = true := by
  simp [truthy, h]

theorem truthy_num {n : Int} (h : n ≠ 0) : truthy (.num n) = true := by
  simp [truthy, h]

theorem includesABCD_of_mem {s : String} (h : s ∈ optionLabels) :
    includesABCD (.str s) = true := by
  simp only [optionLabels, List.mem_cons, List.mem_singleton, List.not_mem_nil, or_false] at h
  rcases h with h | h | h | h <;> subst h <;> rfl

theorem checkQuestion_of_conforms {q : JsValue} (index : Nat)
    (h : QuestionConformsWith (fun n => n ≠ 0) q) : checkQuestion q index = .ok () := by
  obtain ⟨members, n, text, entries, answer, hq, hid, hn, hqt, htext, hop, hent, han, hmem, _⟩ := h
  subst hq
  have h1 : anyFalsy (.obj members) ["id", "question", "options", "correctAnswer"] = .ok false := by
    apply anyFalsy_of_truthy
    intro key hk
    simp only [List.mem_cons, List.mem_singleton, List.not_mem_nil, or_false] at hk
    rcases hk with hk | hk | hk | hk <;> subst hk
    · exact ⟨_, hid, truthy_num hn⟩
    · exact ⟨_, hqt, truthy_str htext⟩
    · exact ⟨_, hop, rfl⟩
    · refine ⟨_, han, truthy_str ?_⟩
      intro he
      subst he
      simp [optionLabels] at hmem
  have h2 : anyFalsy (.obj entries) ["A", "B", "C", "D"] = .ok false := by
    apply anyFalsy_of_truthy
    intro key hk
    obtain ⟨t, ht, hne⟩ := hent key (by simpa [optionLabels] using hk)
    exact ⟨_, ht, truthy_str hne⟩
  simp only [checkQuestion, h1, getProp, hop, h2, han, includesABCD_of_mem hmem, if_true]

theorem forEachQuestion_of_conforms {items : List JsValue} (index : Nat)
    (h : ∀ q ∈ items, QuestionConformsWith (fun n => n ≠ 0) q) :
    forEachQuestion items index = .ok () := by
  induction items generalizing index with
  | nil => rfl
  | cons x xs ih =>
    simp only [forEachQuestion, checkQuestion_of_conforms index (h x (by simp))]
    exact ih (index + 1) (fun q hq => h q (List.mem_cons_of_mem _ hq))

/-- C2, as the code has it: every candidate of the data model whose question
ids are non-zero integers is accepted by `validateQuiz`. -/
theorem validateQuiz_complete (quiz : JsValue)
    (h : QuizConformsWith (fun n => n ≠ 0) quiz) : validateQuiz quiz = .ok true := by
  obtain ⟨members, items, hq, hl, hne, hall⟩ := h
  subst hq
  have hlen : (items.length == 0) = false := by
    cases items with
    | nil => exact absurd rfl hne
    | cons x xs => rfl
  simp [validateQuiz, truthy, typeofIsObject, getProp, hl, isArray, hlen,
    forEachQuestion_of_conforms 0 hall]

theorem sampleQuiz_conforms : QuizConformsWith (fun n => n ≠ 0) sampleQuiz := by
  refine ⟨_, [sampleQuestion], rfl, rfl, by simp, ?_⟩
  intro q hq
  rw [List.mem_singleton] at hq
  subst hq
  refine ⟨_, 1, "What is the sun?", _, "A", rfl, rfl, by decide, rfl, by decide, rfl, ?_, rfl,
    by simp [optionLabels], Or.inr ⟨_, rfl⟩⟩
  intro label hl
  simp only [optionLabels, List.mem_cons, List.mem_singleton, List.not_mem_nil, or_false] at hl
  rcases hl with hl | hl | hl | hl <;> subst hl
  · exact ⟨"A star", rfl, by decide⟩
  · exact ⟨"A planet", rfl, by decide⟩
  · exact ⟨"A moon", rfl, by decide⟩
  · exact ⟨"A comet", rfl, by decide⟩

/-- The sample quiz conforms with a non-zero id, and is accepted. -/
theorem validateQuiz_complete_witness :
    QuizConformsWith (fun n => n ≠ 0) sampleQuiz ∧ validateQuiz sampleQuiz = .ok true :=
  ⟨sampleQuiz_conforms, validateQuiz_complete sampleQuiz sampleQuiz_conforms⟩

/-- C2 as stated fails: a quiz of the data model whose question has the integer
id 0 is rejected as missing required fields. -/
theorem validateQuiz_complete_counterexample :
    QuizConforms zeroIdQuiz ∧
    validateQuiz zeroIdQuiz = .error (.error "Question 1 is missing required fields") := by
  refine ⟨⟨_, _, rfl, rfl, by simp, ?_⟩, rfl⟩
  intro q hq
  rw [List.mem_singleton] at hq
  subst hq
  refine ⟨_, 0, "What is the sun?", _, "A", rfl, rfl, trivial, rfl, by decide, rfl, ?_, rfl,
    by simp [optionLabels], Or.inr ⟨_, rfl⟩⟩
  intro label hl
  simp only [optionLabels, List.mem_cons, List.mem_singleton, List.not_mem_nil, or_false] at hl
  rcases hl with hl | hl | hl | hl <;> subst hl
  · exact ⟨"A star", rfl, by decide⟩
  · exact ⟨"A planet", rfl, by decide⟩
  · exact ⟨"A moon", rfl, by decide⟩
  · exact ⟨"A comet", rfl, by decide⟩

/-- C10: in every candidate `validateQuiz` accepts, each question's
`correctAnswer` is a key of its `options`: `options[correctAnswer]` exists and
is non-empty. -/
theorem correctAnswer_in_options (quiz : JsValue) (h : validateQuiz quiz = .ok true) :
    ∃ members items,
      quiz = .obj members ∧ members.lookup "questions" = some (.arr items) ∧
      ∀ q ∈ items, ∃ options label entry,
        getProp q "options" = .ok options ∧
        getProp q "correctAnswer" = .ok (.str label) ∧
        getProp options label = .ok entry ∧ Present entry := by
  obtain ⟨members, items, hm, hl, _, hall⟩ := quizShape_of_accepted h
  refine ⟨members, items, hm, hl, ?_⟩
  intro q hq
  obtain ⟨qm, id, qt, options, answer, hqm, _, _, _, _, hop, _, han, _,
    ⟨entries, he, hent⟩, hlabel⟩ := hall q hq
  subst hqm
  subst he
  have key : ∀ label ∈ optionLabels, answer = .str label →
      ∃ options label entry,
        getProp (.obj qm) "options" = .ok options ∧
        getProp (.obj qm) "correctAnswer" = .ok (.str label) ∧
        getProp options label = .ok entry ∧ Present entry := by
    intro label hmem ha
    subst ha
    obtain ⟨t, ht, pt⟩ := hent label hmem
    exact ⟨.obj entries, label, t, by simp [getProp, hop], by simp [getProp, han],
      by simp [getProp, ht], pt⟩
  rcases hlabel with ha | ha | ha | ha
  · exact key "A" (by simp [optionLabels]) ha
  · exact key "B" (by simp [optionLabels]) ha
  · exact key "C" (by simp [optionLabels]) ha
  · exact key "D" (by simp [optionLabels]) ha

/-- The sample quiz is accepted, and the answer of its question is among its
options. -/
theorem correctAnswer_in_options_witness :
    validateQuiz sampleQuiz = .ok true ∧
    ∃ members items,
      sampleQuiz = .obj members ∧ members.lookup "questions" = some (.arr items) ∧
      ∀ q ∈ items, ∃ options label entry,
        getProp q "options" = .ok options ∧
        getProp q "correctAnswer" = .ok (.str label) ∧
        getProp options label = .ok entry ∧ Present entry :=
  ⟨rfl, correctAnswer_in_options sampleQuiz rfl⟩

theorem anyFalsy_obj_ok (members : List (String × JsValue)) (keys : List String) :
    ∃ b, anyFalsy (.obj members) keys = .ok b := by
  induction keys with
  | nil => exact ⟨false, rfl⟩
  | cons k ks ih =>
    simp only [anyFalsy, getProp]
    cases members.lookup k with
    | none => exact ⟨true, by simp [truthy]⟩
    | some x =>
      cases hx : truthy x with
      | true =>
        obtain ⟨b, hb⟩ := ih
        exact ⟨b, by simp [hb, hx]⟩
      | false => exact ⟨true, by simp [hx]⟩

/-- On a question that is an object, the callback passes or throws one of its
three messages for that question's number. -/
theorem checkQuestion_obj (members : List (String × JsValue)) (index : Nat) :
    checkQuestion (.obj members) index = .ok () ∨
    checkQuestion (.obj members) index = .error (.error (msgMissingFields index)) ∨
    checkQuestion (.obj members) index = .error (.error (msgOptions index)) ∨
    checkQuestion (.obj members) index = .error (.error (msgCorrectAnswer index)) := by
  unfold checkQuestion
  cases h1 : anyFalsy (.obj members) ["id", "question", "options", "correctAnswer"] with
  | error e =>
    obtain ⟨b, hb⟩ := anyFalsy_obj_ok members ["id", "question", "options", "correctAnswer"]
    rw [hb] at h1
    cases h1
  | ok b =>
    cases b with
    | true => simp
    | false =>
      obtain ⟨options, hop, top⟩ := anyFalsy_false h1 "options" (by simp)
      obtain ⟨answer, han, _⟩ := anyFalsy_false h1 "correctAnswer" (by simp)
      obtain ⟨_, _, _⟩ := getProp_truthy hop top
      simp only [hop, han]
      cases h2 : anyFalsy options ["A", "B", "C", "D"] with
      | error e =>
        cases options with
        | obj entries =>
          obtain ⟨b, hb⟩ := anyFalsy_obj_ok entries ["A", "B", "C", "D"]
          rw [hb] at h2
          cases h2
        | undefined => simp [truthy] at top
        | null => simp [truthy] at top
        | bool b => simp [anyFalsy, getProp, truthy] at h2
        | num n => simp [anyFalsy, getProp, truthy] at h2
        | str s => simp [anyFalsy, getProp, truthy] at h2
        | arr l => simp [anyFalsy, getProp, truthy] at h2
      | ok b =>
        cases b with
        | true => simp
        | false =>
          cases includesABCD answer with
          | true => simp
          | false => simp

/-- The loop fails fast: it throws what the callback throws at the first
question that does not pass, whatever comes later. -/
theorem forEachQuestion_first_failure {items : List JsValue} {start i : Nat} {q : JsValue}
    {e : JsError} (hq : items[i]? = some q)
    (hbefore : ∀ j qj, j < i → items[j]? = some qj → checkQuestion qj (start + j) = .ok ())
    (hfail : checkQuestion q (start + i) = .error e) :
    forEachQuestion items start = .error e := by
  induction items generalizing start i with
  | nil => simp at hq
  | cons x xs ih =>
    cases i with
    | zero =>
      simp only [List.getElem?_cons_zero, Option.some.injEq] at hq
      subst hq
      simp only [Nat.add_zero] at hfail
      simp [forEachQuestion, hfail]
    | succ n =>
      have h0 := hbefore 0 x (Nat.succ_pos n) (by simp)
      simp only [Nat.add_zero] at h0
      simp only [forEachQuestion, h0]
      refine @ih (start + 1) n ?_ ?_ ?_
      · simpa using hq
      · intro j qj hj hqj
        have := hbefore (j + 1) qj (Nat.succ_lt_succ hj) (by simpa using hqj)
        rwa [Nat.add_assoc, Nat.add_comm 1 j]
      · rwa [Nat.add_assoc, Nat.add_comm 1 n]

/-- C9 fails on a `null` question: the candidate is rejected, not with the
message of a check of "Question 1" but with the TypeError of reading `id` of
`null`; the same after a question that passes. -/
theorem validateQuiz_null_question :
    validateQuiz (quizOf [.null]) = .error (.typeError "id") ∧
    validateQuiz (quizOf [sampleQuestion, .null]) = .error (.typeError "id") ∧
    validateQuiz (quizOf [.obj []]) =
      .error (.error "Question 1 is missing required fields") :=
  ⟨rfl, rfl, rfl⟩

/-! ## The text validator -/

theorem validateText_str_iff (s : String) :
    validateText (.str s) = true ↔ 100 ≤ (cleanText (.str s)).length := by
  by_cases hs : s = ""
  · subst hs
    simp [validateText, cleanText]
  · simp [validateText, hs]

/-- C4: `validateText` is the length threshold on the normalised text: true
exactly when `cleanText(text)` has at least 100 characters, so a normalised
length of exactly 100 is accepted and one of 99 rejected; the empty string and
every value that is not a string are rejected. -/
theorem validateText_threshold :
    (∀ s : String, validateText (.str s) = true ↔ 100 ≤ (cleanText (.str s)).length) ∧
    (∀ s : String, (cleanText (.str s)).length = 100 → validateText (.str s) = true) ∧
    (∀ s : String, (cleanText (.str s)).length = 99 → validateText (.str s) = false) ∧
    validateText (.str "") = false ∧
    (∀ v : JsValue, (∀ s, v ≠ .str s) → validateText v = false) := by
  refine ⟨validateText_str_iff, ?_, ?_, rfl, ?_⟩
  · intro s h
    exact (validateText_str_iff s).mpr (by omega)
  · intro s h
    cases hv : validateText (.str s) with
    | false => rfl
    | true =>
      have := (validateText_str_iff s).mp hv
      omega
  · intro v hv
    cases v with
    | str s => exact absurd rfl (hv s)
    | undefined => rfl
    | null => rfl
    | bool b => rfl
    | num n => rfl
    | arr l => rfl
    | obj l => rfl

/-- A text of 100 letters between blanks normalises to exactly 100 characters and
is accepted; with 99 letters it is rejected. -/
theorem validateText_threshold_witness :
    validateText (.str (String.mk (' ' :: List.replicate 100 'a' ++ [' ', '\n']))) = true ∧
    validateText (.str (String.mk (' ' :: List.replicate 99 'a' ++ [' ', '\n']))) = false :=
  ⟨validateText_threshold.2.1 _ (by decide), validateText_threshold.2.2.1 _ (by decide)⟩

/-! ## The text normaliser -/

theorem singleSpaced_replaceRunsFrom (b : Bool) (l : List Char) :
    singleSpaced b (replaceRunsFrom isJsSpace ' ' b l) = true := by
  induction l generalizing b with
  | nil => rfl
  | cons c cs ih =>
    by_cases hc : isJsSpace c = true
    · cases b with
      | true => simpa [replaceRunsFrom, hc] using ih true
      | false =>
        have hsp : isJsSpace ' ' = true := by decide
        simpa [replaceRunsFrom, hc, singleSpaced, hsp] using ih true
    · simpa [replaceRunsFrom, hc, singleSpaced] using ih false

theorem replaceRunsFrom_of_singleSpaced {b : Bool} {l : List Char}
    (h : singleSpaced b l = true) : replaceRunsFrom isJsSpace ' ' b l = l := by
  induction l generalizing b with
  | nil => rfl
  | cons c cs ih =>
    by_cases hc : isJsSpace c = true
    · simp only [singleSpaced, hc, if_true, Bool.and_eq_true, beq_iff_eq,
        Bool.not_eq_true'] at h
      obtain ⟨⟨h1, h2⟩, h3⟩ := h
      subst h1
      subst h2
      simp [replaceRunsFrom, hc, ih h3]
    · simp only [singleSpaced, hc] at h
      simp [replaceRunsFrom, hc, ih h]

theorem singleSpaced_weaken {b : Bool} {l : List Char} (h : singleSpaced b l = true) :
    singleSpaced false l = true := by
  cases l with
  | nil => rfl
  | cons c cs =>
    by_cases hc : isJsSpace c = true
    · simp only [singleSpaced, hc, if_true, Bool.and_eq_true, beq_iff_eq,
        Bool.not_eq_true'] at h
      obtain ⟨⟨h1, _⟩, h3⟩ := h
      subst h1
      simp [singleSpaced, hc, h3]
    · simp only [singleSpaced, hc] at h
      simpa [singleSpaced, hc] using h

theorem singleSpaced_append_left {b : Bool} {p s : List Char}
    (h : singleSpaced b (p ++ s) = true) : singleSpaced b p = true := by
  induction p generalizing b with
  | nil => rfl
  | cons c cs ih =>
    by_cases hc : isJsSpace c = true
    · simp only [List.cons_append, singleSpaced, hc, if_true, Bool.and_eq_true, beq_iff_eq,
        Bool.not_eq_true'] at h
      obtain ⟨⟨h1, h2⟩, h3⟩ := h
      subst h1
      subst h2
      simp [singleSpaced, hc, ih h3]
    · simp only [List.cons_append, singleSpaced, hc] at h
      simpa [singleSpaced, hc] using ih h

theorem singleSpaced_append_right {b : Bool} {p s : List Char}
    (h : singleSpaced b (p ++ s) = true) : singleSpaced false s = true := by
  induction p generalizing b with
  | nil => exact singleSpaced_weaken h
  | cons c cs ih =>
    by_cases hc : isJsSpace c = true
    · simp only [List.cons_append, singleSpaced, hc, if_true, Bool.and_eq_true] at h
      exact ih h.2
    · simp only [List.cons_append, singleSpaced, hc] at h
      exact ih h

theorem singleSpaced_space {b : Bool} {l : List Char} (h : singleSpaced b l = true) :
    ∀ c ∈ l, isJsSpace c = true → c = ' ' := by
  induction l generalizing b with
  | nil => intro c hc; cases hc
  | cons x xs ih =>
    intro c hmem hsp
    by_cases hx : isJsSpace x = true
    · simp only [singleSpaced, hx, if_true, Bool.and_eq_true, beq_iff_eq] at h
      rcases List.mem_cons.mp hmem with rfl | hmem
      · exact h.1.1
      · exact ih h.2 c hmem hsp
    · simp only [singleSpaced, hx] at h
      rcases List.mem_cons.mp hmem with rfl | hmem
      · exact absurd hsp hx
      · exact ih h c hmem hsp

theorem replaceRunsFrom_of_none {p : Char → Bool} {r : Char} {l : List Char} (b : Bool)
    (h : ∀ c ∈ l, p c = false) : replaceRunsFrom p r b l = l := by
  induction l generalizing b with
  | nil => rfl
  | cons c cs ih =>
    have hc : p c = false := h c (by simp)
    simp [replaceRunsFrom, hc, ih false (fun x hx => h x (List.mem_cons_of_mem _ hx))]

theorem mem_replaceRunsFrom {p : Char → Bool} {r : Char} {b : Bool} {l : List Char} {c : Char}
    (h : c ∈ replaceRunsFrom p r b l) : c = r ∨ c ∈ l := by
  induction l generalizing b with
  | nil => simp [replaceRunsFrom] at h
  | cons x xs ih =>
    cases hx : p x with
    | true =>
      cases b with
      | true =>
        simp only [replaceRunsFrom, hx, if_true] at h
        exact (ih h).imp id (List.mem_cons_of_mem _)
      | false =>
        simp only [replaceRunsFrom, hx, if_true, Bool.false_eq_true, if_false] at h
        rcases List.mem_cons.mp h with h | h
        · exact Or.inl h
        · exact (ih h).imp id (List.mem_cons_of_mem _)
    | false =>
      simp only [replaceRunsFrom, hx, Bool.false_eq_true, if_false] at h
      rcases List.mem_cons.mp h with h | h
      · exact Or.inr (by simp [h])
      · exact (ih h).imp id (List.mem_cons_of_mem _)

theorem trim_eq (l : List Char) :
    trim l = (l.dropWhile isJsSpace).rdropWhile isJsSpace := rfl

theorem mem_of_mem_trim {l : List Char} {c : Char} (h : c ∈ trim l) : c ∈ l := by
  rw [trim_eq] at h
  exact (List.dropWhile_suffix _).subset ((List.rdropWhile_prefix _ _).subset h)

theorem dropWhile_rdropWhile_of_fixed {p : Char → Bool} {m : List Char}
    (h : m.dropWhile p = m) : (m.rdropWhile p).dropWhile p = m.rdropWhile p := by
  cases m with
  | nil => simp
  | cons a t =>
    have ha : p a = false := by
      cases hp : p a with
      | false => rfl
      | true =>
        rw [List.dropWhile_cons_of_pos hp] at h
        have hlen := (List.dropWhile_suffix p (l := t)).length_le
        rw [h] at hlen
        simp at hlen
    obtain ⟨s, hs⟩ := List.rdropWhile_prefix p (a :: t)
    cases hr : List.rdropWhile p (a :: t) with
    | nil => rfl
    | cons x xs =>
      rw [hr] at hs
      injection hs with hx _
      subst hx
      simp [List.dropWhile, ha]

theorem trim_trim (l : List Char) : trim (trim l) = trim l := by
  simp only [trim_eq]
  rw [dropWhile_rdropWhile_of_fixed (List.dropWhile_idempotent _ _), List.rdropWhile_idempotent]

theorem singleSpaced_trim {l : List Char} (h : singleSpaced false l = true) :
    singleSpaced false (trim l) = true := by
  obtain ⟨p, hp⟩ := List.dropWhile_suffix isJsSpace (l := l)
  obtain ⟨s, hs⟩ := List.rdropWhile_prefix isJsSpace (l.dropWhile isJsSpace)
  rw [trim_eq]
  rw [← hp] at h
  have h2 := singleSpaced_append_right h
  rw [← hs] at h2
  exact singleSpaced_append_left h2

/-- On text of allow-listed characters the chain is: collapse white space, trim. -/
theorem cleanChars_of_allowed {l : List Char} (h : ∀ c ∈ l, isAllowed c = true) :
    cleanChars l = trim (replaceRuns isJsSpace ' ' l) := by
  have hsp := singleSpaced_space (singleSpaced_replaceRunsFrom false l)
  have hnl : replaceRuns (fun c => c == '\n') '\n' (replaceRuns isJsSpace ' ' l) =
      replaceRuns isJsSpace ' ' l := by
    apply replaceRunsFrom_of_none
    intro c hc
    cases hn : (c == '\n') with
    | false => rfl
    | true =>
      rw [beq_iff_eq] at hn
      subst hn
      exact absurd (hsp _ hc (by decide)) (by decide)
  have hall : ∀ c ∈ replaceRuns isJsSpace ' ' l, isAllowed c = true := by
    intro c hc
    rcases mem_replaceRunsFrom hc with rfl | hc
    · decide
    · exact h c hc
  simp only [cleanChars, hnl]
  rw [List.filter_eq_self.mpr hall]

theorem cleanChars_idem_of_allowed {l : List Char} (h : ∀ c ∈ l, isAllowed c = true) :
    cleanChars (cleanChars l) = cleanChars l := by
  have hy := cleanChars_of_allowed h
  have hall : ∀ c ∈ cleanChars l, isAllowed c = true := by
    intro c hc
    rw [hy] at hc
    rcases mem_replaceRunsFrom (mem_of_mem_trim hc) with rfl | hc
    · decide
    · exact h c hc
  have hss : singleSpaced false (cleanChars l) = true := by
    rw [hy]
    exact singleSpaced_trim (singleSpaced_replaceRunsFrom false l)
  rw [cleanChars_of_allowed hall]
  unfold replaceRuns
  rw [replaceRunsFrom_of_singleSpaced hss, hy]
  exact trim_trim _

/-- Where nothing is stripped the normalisation is idempotent: on text all of
whose characters are on the allow-list (word characters, white space and
`. , ; : ! ? ( ) -`), `cleanText(cleanText(x)) = cleanText(x)`. -/
theorem cleanText_idempotent_of_allowed (x : String)
    (h : ∀ c ∈ x.data, isAllowed c = true) :
    cleanText (.str (cleanText (.str x))) = cleanText (.str x) := by
  by_cases hx : x = ""
  · subst hx
    rfl
  · have e1 : cleanText (.str x) = String.mk (cleanChars x.data) := by
      simp [cleanText, hx]
    rw [e1]
    by_cases hy : String.mk (cleanChars x.data) = ""
    · rw [hy]
      rfl
    · simp only [cleanText, beq_iff_eq, hy, if_false]
      rw [cleanChars_idem_of_allowed h]

/-- A text of allow-listed characters with runs of blanks and newlines, on
which a second normalisation changes nothing. -/
theorem cleanText_idempotent_of_allowed_example :
    (∀ c ∈ "  The sun:  a star\n\n(hot)! ".data, isAllowed c = true) ∧
    cleanText (.str (cleanText (.str "  The sun:  a star\n\n(hot)! "))) =
      cleanText (.str "  The sun:  a star\n\n(hot)! ") :=
  ⟨by decide, cleanText_idempotent_of_allowed _ (by decide)⟩

/-- C3 fails on "a # b": the white space is collapsed on line 53 before the `#`
is stripped on line 55, so the first normalisation returns "a  b" with two
adjacent blanks, and a second one collapses them to "a b". Where no stripped
character stands between blanks the second normalisation changes nothing, as on
"don't stop: 100% naïve" and on every text of allow-listed characters. -/
theorem cleanText_not_idempotent :
    cleanText (.str "a # b") = "a  b" ∧
    cleanText (.str (cleanText (.str "a # b"))) = "a b" ∧
    cleanText (.str (cleanText (.str "a # b"))) ≠ cleanText (.str "a # b") ∧
    cleanText (.str "don't stop: 100% naïve") = "dont stop: 100 nave" ∧
    cleanText (.str (cleanText (.str "don't stop: 100% naïve"))) =
      cleanText (.str "don't stop: 100% naïve") ∧
    (∀ x : String, (∀ c ∈ x.data, isAllowed c = true) →
      cleanText (.str (cleanText (.str x))) = cleanText (.str x)) := by
  refine ⟨by decide, by decide, by decide, by decide, by decide, ?_⟩
  exact cleanText_idempotent_of_allowed

/-! ## The response parser -/

theorem matchToClose_eq_none {l : List Char} : matchToClose l = none ↔ '}' ∉ l := by
  induction l with
  | nil => simp [matchToClose]
  | cons c cs ih =>
    simp only [matchToClose]
    cases hm : matchToClose cs with
    | some t =>
      have : ¬ ('}' ∉ cs) := fun hn => by rw [ih.mpr hn] at hm; cases hm
      simp only [reduceCtorEq, false_iff, List.mem_cons, not_or, not_and, not_not]
      intro _
      exact not_not.mp this
    | none =>
      have hcs := ih.mp hm
      by_cases hc : c = '}'
      · subst hc
        simp
      · simp [hc, hcs, Ne.symm hc]

theorem matchToClose_eq_some {l t : List Char} (h : matchToClose l = some t) :
    ∃ inner after, l = inner ++ '}' :: after ∧ '}' ∉ after ∧ t = inner ++ ['}'] := by
  induction l generalizing t with
  | nil => simp [matchToClose] at h
  | cons c cs ih =>
    simp only [matchToClose] at h
    cases hm : matchToClose cs with
    | some t2 =>
      rw [hm] at h
      injection h with h
      subst h
      obtain ⟨inner, after, h1, h2, h3⟩ := ih hm
      exact ⟨c :: inner, after, by simp [h1], h2, by simp [h3]⟩
    | none =>
      rw [hm] at h
      by_cases hc : c = '}'
      · subst hc
        simp only [beq_self_eq_true, if_true, Option.some.injEq] at h
        subst h
        exact ⟨[], cs, rfl, matchToClose_eq_none.mp hm, rfl⟩
      · simp [hc] at h

theorem matchBraceSpan_of_no_close {l : List Char} (h : '}' ∉ l) :
    matchBraceSpan l = none := by
  induction l with
  | nil => rfl
  | cons c cs ih =>
    have hcs : '}' ∉ cs := fun hm => h (List.mem_cons_of_mem _ hm)
    simp only [matchBraceSpan, matchToClose_eq_none.mpr hcs, ih hcs, ite_self]

/-- A match of the regular expression runs from the first `{` to the last `}`. -/
theorem matchBraceSpan_eq_some {l span : List Char} (h : matchBraceSpan l = some span) :
    IsOutermostSpan l span := by
  induction l with
  | nil => simp [matchBraceSpan] at h
  | cons c cs ih =>
    simp only [matchBraceSpan] at h
    by_cases hc : c = '{'
    · subst hc
      simp only [beq_self_eq_true, if_true] at h
      cases hm : matchToClose cs with
      | some t =>
        rw [hm] at h
        injection h with h
        subst h
        obtain ⟨inner, after, h1, h2, h3⟩ := matchToClose_eq_some hm
        exact ⟨[], inner, after, by simp [h1], by simp, h2, by simp [h3]⟩
      | none =>
        rw [hm, matchBraceSpan_of_no_close (matchToClose_eq_none.mp hm)] at h
        cases h
    · have hne : (c == '{') = false := by simp [hc]
      rw [hne] at h
      obtain ⟨before, inner, after, h1, h2, h3, h4⟩ := ih h
      refine ⟨c :: before, inner, after, by simp [h1], ?_, h3, h4⟩
      simp only [List.mem_cons, not_or]
      exact ⟨Ne.symm hc, h2⟩

/-- The regular expression matches as soon as a `{` is followed by a `}`. -/
theorem matchBraceSpan_isSome {l : List Char} (h : HasBraceSpan l) :
    ∃ span, matchBraceSpan l = some span := by
  obtain ⟨a, b, c, hl⟩ := h
  subst hl
  induction a with
  | nil =>
    have hmem : '}' ∈ b ++ '}' :: c := by simp
    cases hm : matchToClose (b ++ '}' :: c) with
    | none => exact absurd hmem (matchToClose_eq_none.mp hm)
    | some t => exact ⟨'{' :: t, by simp [matchBraceSpan, hm]⟩
  | cons x xs ih =>
    obtain ⟨span, hs⟩ := ih
    by_cases hx : x = '{'
    · subst hx
      have hmem : '}' ∈ xs ++ '{' :: (b ++ '}' :: c) := by simp
      cases hm : matchToClose (xs ++ '{' :: (b ++ '}' :: c)) with
      | none => exact absurd hmem (matchToClose_eq_none.mp hm)
      | some t => exact ⟨'{' :: t, by simp [matchBraceSpan, hm]⟩
    · exact ⟨span, by simp [matchBraceSpan, hx, hs]⟩

theorem matchBraceSpan_eq_none {l : List Char} (h : ¬ HasBraceSpan l) :
    matchBraceSpan l = none := by
  cases hm : matchBraceSpan l with
  | none => rfl
  | some span =>
    obtain ⟨before, inner, after, h1, _, _, _⟩ := matchBraceSpan_eq_some hm
    exact absurd ⟨before, inner, after, h1⟩ h

theorem matchToClose_append {inner after : List Char} (h : '}' ∉ after) :
    matchToClose (inner ++ '}' :: after) = some (inner ++ ['}']) := by
  induction inner with
  | nil => simp [matchToClose, matchToClose_eq_none.mpr h]
  | cons c cs ih => simp [matchToClose, ih]

/-- The regular expression matches the span from the first `{` to the last `}`. -/
theorem matchBraceSpan_of_outermost {l span : List Char} (h : IsOutermostSpan l span) :
    matchBraceSpan l = some span := by
  obtain ⟨before, inner, after, h1, h2, h3, h4⟩ := h
  subst h1
  subst h4
  induction before with
  | nil => simp [matchBraceSpan, matchToClose_append h3]
  | cons c cs ih =>
    simp only [List.mem_cons, not_or] at h2
    have hc : (c == '{') = false := by simp [Ne.symm h2.1]
    simp only [List.cons_append, matchBraceSpan, hc]
    exact ih h2.2

theorem length_substringTo (text : String) (n : Nat) :
    (substringTo text n).length = min n text.length := by
  show (text.data.take n).length = min n text.data.length
  exact List.length_take n text.data

/-- C5: when the strict parse of the whole completion text fails and the text
holds a `{` followed later by a `}`, the text has a substring running from its
first `{` to its last `}`, both included, and the candidate is the strict parse
of that substring (a SyntaxError on it is thrown as it is); on
`noise {"a":1} more noise` the result is the object `{a: 1}`. -/
theorem parseResponse_fallback :
    (∀ (parse : String → Option JsValue) (aiResponse : String),
      parse aiResponse = none → HasBraceSpan aiResponse.data →
      (∃ span, IsOutermostSpan aiResponse.data span) ∧
      ∀ span, IsOutermostSpan aiResponse.data span →
        parseResponse parse aiResponse =
          match parse (String.mk span) with
          | some quiz => .ok quiz
          | none => .error (.syntaxError (String.mk span))) ∧
    parseResponse jsonParse "noise \x7b\"a\":1\x7d more noise" =
      .ok (.obj [("a", .num 1)]) := by
  refine ⟨?_, rfl⟩
  intro parse aiResponse hfail hspan
  obtain ⟨span, hs⟩ := matchBraceSpan_isSome hspan
  refine ⟨⟨span, matchBraceSpan_eq_some hs⟩, ?_⟩
  intro span2 h2
  simp only [parseResponse, hfail, matchBraceSpan_of_outermost h2]

/-- A reply with prose around a nested object: the whole text is not JSON, the
span from the first `{` to the last `}` is, and its parse is the candidate. -/
theorem parseResponse_fallback_witness :
    jsonParse "Here: \x7b\"a\": \x7b\"b\": 2\x7d\x7d. Done" = none ∧
    HasBraceSpan "Here: \x7b\"a\": \x7b\"b\": 2\x7d\x7d. Done".data ∧
    IsOutermostSpan "Here: \x7b\"a\": \x7b\"b\": 2\x7d\x7d. Done".data
      "\x7b\"a\": \x7b\"b\": 2\x7d\x7d".data ∧
    parseResponse jsonParse "Here: \x7b\"a\": \x7b\"b\": 2\x7d\x7d. Done" =
      .ok (.obj [("a", .obj [("b", .num 2)])]) :=
  ⟨rfl, ⟨"Here: ".data, "\"a\": \x7b\"b\": 2".data, "\x7d. Done".data, rfl⟩,
    ⟨"Here: ".data, "\"a\": \x7b\"b\": 2\x7d".data, ". Done".data, rfl, by decide, by decide, rfl⟩,
    (parseResponse_fallback.1 jsonParse "Here: \x7b\"a\": \x7b\"b\": 2\x7d\x7d. Done" rfl
      ⟨"Here: ".data, "\"a\": \x7b\"b\": 2".data, "\x7d. Done".data, rfl⟩).2
      "\x7b\"a\": \x7b\"b\": 2\x7d\x7d".data
      ⟨"Here: ".data, "\"a\": \x7b\"b\": 2\x7d".data, ". Done".data, rfl, by decide, by decide, rfl⟩⟩

/-- C6: when the whole completion text parses strictly, the candidate is that
parse, whatever spans of braces the text holds. -/
theorem parseResponse_direct (parse : String → Option JsValue) (aiResponse : String)
    (quiz : JsValue) (h : parse aiResponse = some quiz) :
    parseResponse parse aiResponse = .ok quiz := by
  simp only [parseResponse, h]

/-- A JSON array around an object parses as a whole: the candidate is the array,
not the object between its braces. -/
theorem parseResponse_direct_witness :
    jsonParse "[\x7b\"a\":1\x7d]" = some (.arr [.obj [("a", .num 1)]]) ∧
    matchBraceSpan "[\x7b\"a\":1\x7d]".data = some "\x7b\"a\":1\x7d".data ∧
    parseResponse jsonParse "[\x7b\"a\":1\x7d]" = .ok (.arr [.obj [("a", .num 1)]]) :=
  ⟨rfl, rfl, parseResponse_direct jsonParse _ _ rfl⟩

/-- C7: when the strict parse of the whole completion text fails and the text
holds no `{` followed later by a `}`, the parser throws the error 'Failed to
parse quiz JSON from OpenAI response: ' followed by the first 500 characters of
the text (the first `min(500, length)`), and `generateQuiz` throws without a
candidate: the `catch` block wraps that error as the generic failure. -/
theorem parseResponse_unparsable (parse : String → Option JsValue) (aiResponse : String)
    (hfail : parse aiResponse = none) (hspan : ¬ HasBraceSpan aiResponse.data) :
    parseResponse parse aiResponse =
      .error (.error ("Failed to parse quiz JSON from OpenAI response: " ++
        String.mk (aiResponse.data.take 500))) ∧
    (String.mk (aiResponse.data.take 500)).length = min 500 aiResponse.length ∧
    quizFromResponse parse aiResponse =
      .error (.generationFailed (.error ("Failed to parse quiz JSON from OpenAI response: " ++
        String.mk (aiResponse.data.take 500)))) := by
  have h : parseResponse parse aiResponse = .error (unparsableResponse aiResponse) := by
    simp only [parseResponse, hfail, matchBraceSpan_eq_none hspan]
  refine ⟨h, length_substringTo aiResponse 500, ?_⟩
  simp only [quizFromResponse, h]
  rfl

theorem not_hasBraceSpan_of_none {l : List Char} (h : matchBraceSpan l = none) :
    ¬ HasBraceSpan l := by
  intro hs
  obtain ⟨span, hm⟩ := matchBraceSpan_isSome hs
  rw [h] at hm
  cases hm

/-- A reply in prose, with a `}` before its only `{`: neither JSON nor a span. -/
theorem parseResponse_unparsable_witness :
    jsonParse "I cannot \x7d write a quiz \x7b from this." = none ∧
    ¬ HasBraceSpan "I cannot \x7d write a quiz \x7b from this.".data ∧
    parseResponse jsonParse "I cannot \x7d write a quiz \x7b from this." =
      .error (.error ("Failed to parse quiz JSON from OpenAI response: " ++
        "I cannot \x7d write a quiz \x7b from this.")) :=
  ⟨rfl, not_hasBraceSpan_of_none rfl,
    (parseResponse_unparsable jsonParse "I cannot \x7d write a quiz \x7b from this." rfl
      (not_hasBraceSpan_of_none rfl)).1⟩

/-- C8 fails when the span of braces is not JSON either: on
`Sorry {no quiz} here` both parses fail and what is thrown is the SyntaxError of
`JSON.parse` on `{no quiz}`, wrapped by the `catch` block as the generic
failure, not the error that carries the excerpt of the text. -/
theorem parseResponse_span_syntaxError :
    jsonParse "Sorry \x7bno quiz\x7d here" = none ∧
    matchBraceSpan "Sorry \x7bno quiz\x7d here".data = some "\x7bno quiz\x7d".data ∧
    jsonParse "\x7bno quiz\x7d" = none ∧
    parseResponse jsonParse "Sorry \x7bno quiz\x7d here" =
      .error (.syntaxError "\x7bno quiz\x7d") ∧
    quizFromResponse jsonParse "Sorry \x7bno quiz\x7d here" =
      .error (.generationFailed (.syntaxError "\x7bno quiz\x7d")) ∧
    parseResponse jsonParse "Sorry \x7bno quiz\x7d here" ≠
      .error (unparsableResponse "Sorry \x7bno quiz\x7d here") := by
  refine ⟨rfl, rfl, rfl, rfl, rfl, ?_⟩
  intro h
  have h2 : parseResponse jsonParse "Sorry \x7bno quiz\x7d here" =
      .error (.syntaxError "\x7bno quiz\x7d") := rfl
  rw [h2] at h
  injection h with h
  cases h

/-! ## The prompt builder -/

/-- The prompt is the text before the material, the first 8000 characters of the
document, and the text after the material, neither of which reads the document. -/
theorem buildPrompt_eq (documentText difficulty : String) (questionCount : QuestionCount) :
    buildPrompt documentText difficulty questionCount =
      promptBefore difficulty questionCount ++ substringTo documentText 8000 ++
        promptAfter difficulty questionCount := by
  simp only [buildPrompt, promptBefore, promptAfter, promptClosing, instructionLine,
    promptAfterMaterial, promptRules, String.append_assoc]

theorem substringTo_of_le (text : String) (n : Nat) (h : text.length ≤ n) :
    substringTo text n = text := by
  show String.mk (text.data.take n) = text
  rw [List.take_of_length_le h]

/-- C11: `buildPrompt` embeds the first 8000 characters of the document and
nothing beyond them: two documents with the same first 8000 characters give the
identical prompt for every difficulty and question count, and a document of at
most 8000 characters is embedded in full. -/
theorem buildPrompt_truncation :
    (∀ (d1 d2 difficulty : String) (questionCount : QuestionCount),
      d1.data.take 8000 = d2.data.take 8000 →
      buildPrompt d1 difficulty questionCount = buildPrompt d2 difficulty questionCount) ∧
    (∀ (d difficulty : String) (questionCount : QuestionCount),
      buildPrompt d difficulty questionCount =
        promptBefore difficulty questionCount ++ String.mk (d.data.take 8000) ++
          promptAfter difficulty questionCount) ∧
    (∀ (d difficulty : String) (questionCount : QuestionCount), d.length ≤ 8000 →
      buildPrompt d difficulty questionCount =
        promptBefore difficulty questionCount ++ d ++ promptAfter difficulty questionCount) := by
  refine ⟨?_, buildPrompt_eq, ?_⟩
  · intro d1 d2 difficulty questionCount h
    rw [buildPrompt_eq, buildPrompt_eq]
    simp only [substringTo, h]
  · intro d difficulty questionCount h
    rw [buildPrompt_eq, substringTo_of_le d 8000 h]

/-- Two documents of 8001 characters that differ in the last one give the same
prompt. -/
theorem buildPrompt_truncation_witness :
    (String.mk (List.replicate 8000 'a' ++ ['x'])).data.take 8000 =
      (String.mk (List.replicate 8000 'a' ++ ['y'])).data.take 8000 ∧
    buildPrompt (String.mk (List.replicate 8000 'a' ++ ['x'])) "easy" (.int 1) =
      buildPrompt (String.mk (List.replicate 8000 'a' ++ ['y'])) "easy" (.int 1) :=
  have h : (String.mk (List.replicate 8000 'a' ++ ['x'])).data.take 8000 =
      (String.mk (List.replicate 8000 'a' ++ ['y'])).data.take 8000 := by
    show (List.replicate 8000 'a' ++ ['x']).take 8000 = (List.replicate 8000 'a' ++ ['y']).take 8000
    rw [List.take_left' (List.length_replicate 8000 'a'),
      List.take_left' (List.length_replicate 8000 'a')]
  ⟨h, buildPrompt_truncation.1 _ _ "easy" (.int 1) h⟩

theorem buildPrompt_instructionLine (documentText difficulty : String)
    (questionCount : QuestionCount) :
    buildPrompt documentText difficulty questionCount =
      promptBefore difficulty questionCount ++ substringTo documentText 8000 ++
        promptMaterialNote ++ instructionLine difficulty ++
        promptClosing difficulty questionCount := by
  rw [buildPrompt_eq]
  simp only [promptAfter, String.append_assoc]

/-- C20, as the code has it: the table is read at the lower-cased difficulty.
When that is none of `easy`, `medium`, `hard` (nor `constructor` or `__proto__`,
which the object literal inherits), the instruction line of the prompt is the
text `undefined`; when it is one of the three keys, in any letter case, the line
is that key's instruction. `buildPrompt` is total, and the line stands in the
prompt between the requirements heading and the fixed rules. -/
theorem instructionLine_of_difficulty :
    (∀ difficulty : String,
      toLowerCase difficulty ∉ ["easy", "medium", "hard", "constructor", "__proto__"] →
      instructionLine difficulty = "- undefined\n") ∧
    (∀ difficulty : String, toLowerCase difficulty = "easy" →
      instructionLine difficulty =
        "- Create simple, straightforward questions that test basic understanding and recall of key facts.\n") ∧
    (∀ difficulty : String, toLowerCase difficulty = "medium" →
      instructionLine difficulty =
        "- Create moderate difficulty questions that require some analysis and understanding of concepts.\n") ∧
    (∀ difficulty : String, toLowerCase difficulty = "hard" →
      instructionLine difficulty =
        "- Create challenging questions that require critical thinking, analysis, and deep understanding of the material.\n") ∧
    (∀ (documentText difficulty : String) (questionCount : QuestionCount),
      buildPrompt documentText difficulty questionCount =
        promptBefore difficulty questionCount ++ substringTo documentText 8000 ++
          promptMaterialNote ++ instructionLine difficulty ++
          promptClosing difficulty questionCount) := by
  refine ⟨?_, ?_, ?_, ?_, buildPrompt_instructionLine⟩
  · intro difficulty h
    simp only [List.mem_cons, List.mem_singleton, List.not_mem_nil, or_false, not_or] at h
    obtain ⟨h1, h2, h3, h4, h5⟩ := h
    simp only [instructionLine, difficultyInstructions, beq_iff_eq, h1, h2, h3, h4, h5,
      if_false, TableEntry.render]
    rfl
  · intro difficulty h
    simp only [instructionLine, h]
    rfl
  · intro difficulty h
    simp only [instructionLine, h]
    rfl
  · intro difficulty h
    simp only [instructionLine, h]
    rfl

/-- The difficulty `expert` is in no table, and its instruction line is
`undefined`; `HARD` reads the instruction of `hard`. -/
theorem instructionLine_of_difficulty_witness :
    toLowerCase "expert" ∉ ["easy", "medium", "hard", "constructor", "__proto__"] ∧
    instructionLine "expert" = "- undefined\n" ∧
    instructionLine "HARD" =
      "- Create challenging questions that require critical thinking, analysis, and deep understanding of the material.\n" :=
  ⟨by decide, instructionLine_of_difficulty.1 "expert" (by decide),
    instructionLine_of_difficulty.2.2.2.1 "HARD" (by decide)⟩

/-- C20 as stated fails: `constructor` is none of the three keys, yet its
instruction line is the text of the function `Object`, which the table inherits,
not `undefined`; and `Easy`, not a key of the table either, reads the
instruction of `easy`. -/
theorem instructionLine_counterexample :
    "constructor" ∉ ["easy", "medium", "hard"] ∧
    instructionLine "constructor" = "- function Object() \x7b [native code] \x7d\n" ∧
    instructionLine "constructor" ≠ "- undefined\n" ∧
    "Easy" ∉ ["easy", "medium", "hard"] ∧
    instructionLine "Easy" =
      "- Create simple, straightforward questions that test basic understanding and recall of key facts.\n" ∧
    instructionLine "Easy" ≠ "- undefined\n" := by
  decide

/-! ## The invariants of normalised text -/

/-- After the white-space replace no newline is left, so the newline replace of
line 54 changes nothing. -/
theorem replaceRuns_newline_noop (l : List Char) :
    replaceRuns (fun c => c == '\n') '\n' (replaceRuns isJsSpace ' ' l) =
      replaceRuns isJsSpace ' ' l := by
  have hsp := singleSpaced_space (singleSpaced_replaceRunsFrom false l)
  apply replaceRunsFrom_of_none
  intro c hc
  cases hn : (c == '\n') with
  | false => rfl
  | true =>
    rw [beq_iff_eq] at hn
    subst hn
    exact absurd (hsp _ hc (by decide)) (by decide)

theorem cleanChars_eq (l : List Char) :
    cleanChars l = trim (List.filter isAllowed (replaceRuns isJsSpace ' ' l)) := by
  simp only [cleanChars, replaceRuns_newline_noop]

theorem mem_cleanChars {l : List Char} {c : Char} (h : c ∈ cleanChars l) :
    isAllowed c = true ∧ (c = ' ' ∨ c ∈ l) ∧ (isJsSpace c = true → c = ' ') := by
  rw [cleanChars_eq] at h
  have hf := mem_of_mem_trim h
  rw [List.mem_filter] at hf
  exact ⟨hf.2, mem_replaceRunsFrom hf.1,
    singleSpaced_space (singleSpaced_replaceRunsFrom false l) c hf.1⟩

theorem data_cleanText (s : String) : (cleanText (.str s)).data = cleanChars s.data := by
  by_cases hs : s = ""
  · subst hs
    rfl
  · simp [cleanText, hs]

theorem filter_dropWhile_not (p : Char → Bool) (l : List Char) :
    (l.dropWhile p).filter (fun c => !p c) = l.filter (fun c => !p c) := by
  induction l with
  | nil => rfl
  | cons x xs ih =>
    cases hx : p x with
    | true => simp [List.dropWhile, List.filter, hx, ih]
    | false => simp [List.dropWhile, hx]

theorem filter_trim (l : List Char) :
    (trim l).filter (fun c => !isJsSpace c) = l.filter (fun c => !isJsSpace c) := by
  unfold trim
  rw [List.filter_reverse, filter_dropWhile_not, ← List.filter_reverse, List.reverse_reverse,
    filter_dropWhile_not]

theorem filter_replaceRunsFrom (b : Bool) (l : List Char) :
    (replaceRunsFrom isJsSpace ' ' b l).filter (fun c => !isJsSpace c) =
      l.filter (fun c => !isJsSpace c) := by
  induction l generalizing b with
  | nil => rfl
  | cons x xs ih =>
    have hsp : isJsSpace ' ' = true := by decide
    cases hx : isJsSpace x with
    | true =>
      cases b with
      | true => simp [replaceRunsFrom, hx, ih]
      | false => simp [replaceRunsFrom, hx, ih, hsp]
    | false => simp [replaceRunsFrom, hx, ih]

/-- C18: every character of the output of `cleanText` is a word character (ASCII
letter, digit or underscore), a white-space character or one of
`. , ; : ! ? ( ) -`; the characters of the input outside this list are stripped,
and its listed characters other than white space are kept, in order. -/
theorem cleanText_allowed (s : String) :
    (∀ c ∈ (cleanText (.str s)).data,
      isWordChar c = true ∨ isJsSpace c = true ∨
        c ∈ ['.', ',', ';', ':', '!', '?', '(', ')', '-']) ∧
    (cleanText (.str s)).data.filter (fun c => !isJsSpace c) =
      s.data.filter (fun c => isAllowed c && !isJsSpace c) := by
  rw [data_cleanText]
  constructor
  · intro c hc
    have h := (mem_cleanChars hc).1
    simp only [isAllowed, Bool.or_eq_true, beq_iff_eq] at h
    simp only [List.mem_cons, List.mem_singleton, List.not_mem_nil, or_false]
    tauto
  · have hswap : ∀ l : List Char,
        (List.filter isAllowed l).filter (fun c => !isJsSpace c) =
          (l.filter (fun c => !isJsSpace c)).filter isAllowed := by
      intro l
      rw [List.filter_filter, List.filter_filter]
      congr 1
      funext c
      exact Bool.and_comm _ _
    rw [cleanChars_eq, filter_trim, hswap]
    unfold replaceRuns
    rw [filter_replaceRunsFrom, List.filter_filter]

/-- C16 fails on "a # b": the white space is collapsed before the `#` is
stripped, so the output "a  b" holds two adjacent blanks. On text of
allow-listed characters, where nothing is stripped, the output is single-spaced. -/
theorem cleanText_adjacent_blanks :
    cleanText (.str "a # b") = "a  b" ∧
    (∃ before after, (cleanText (.str "a # b")).data = before ++ ' ' :: ' ' :: after) ∧
    (∀ s : String, (∀ c ∈ s.data, isAllowed c = true) →
      singleSpaced false (cleanText (.str s)).data = true) := by
  refine ⟨by decide, ⟨['a'], ['b'], by decide⟩, ?_⟩
  intro s h
  rw [data_cleanText, cleanChars_of_allowed h]
  exact singleSpaced_trim (singleSpaced_replaceRunsFrom false s.data)

/-- C17 fails on "a\n\nb": the newlines are white space, so the replace of line
53 has turned them into one blank before the newline replace of line 54 runs,
and the output is "a b"; no output of `cleanText` holds a newline at all. -/
theorem cleanText_newlines_become_blanks :
    cleanText (.str "a\n\nb") = "a b" ∧
    cleanText (.str "a\n\nb") ≠ "a\nb" ∧
    (∀ s : String, '\n' ∉ (cleanText (.str s)).data) := by
  refine ⟨by decide, by decide, ?_⟩
  intro s h
  rw [data_cleanText] at h
  exact absurd ((mem_cleanChars h).2.2 (by decide)) (by decide)

/-! ## The ids of an accepted quiz -/

/-- C19, as the code has it: in every candidate `validateQuiz` accepts, each
question has a present, non-empty `id`; the validator compares no two ids. -/
theorem questionIds_present (quiz : JsValue) (h : validateQuiz quiz = .ok true) :
    questionIds quiz ≠ [] ∧ ∀ id ∈ questionIds quiz, ∃ v, id = some v ∧ Present v := by
  obtain ⟨members, items, hm, hl, hne, hall⟩ := quizShape_of_accepted h
  subst hm
  simp only [questionIds, memberOf, hl]
  refine ⟨by simpa using hne, ?_⟩
  intro id hid
  rw [List.mem_map] at hid
  obtain ⟨q, hq, hqid⟩ := hid
  obtain ⟨qm, v, _, _, _, hqm, hv, pv, _⟩ := hall q hq
  subst hqm
  exact ⟨v, by rw [← hqid]; exact hv, pv⟩

/-- The sample quiz is accepted and its one id is present. -/
theorem questionIds_present_witness :
    validateQuiz sampleQuiz = .ok true ∧
    questionIds sampleQuiz ≠ [] ∧ ∀ id ∈ questionIds sampleQuiz, ∃ v, id = some v ∧ Present v :=
  ⟨rfl, questionIds_present sampleQuiz rfl⟩

/-- C19 as stated fails: a quiz whose two questions both carry the id 1 is
accepted. -/
theorem questionIds_unique_counterexample :
    validateQuiz (quizOf [sampleQuestion, orbitQuestion]) = .ok true ∧
    questionIds (quizOf [sampleQuestion, orbitQuestion]) = [some (.num 1), some (.num 1)] ∧
    ¬ (questionIds (quizOf [sampleQuestion, orbitQuestion])).Nodup := by
  refine ⟨rfl, rfl, ?_⟩
  rw [show questionIds (quizOf [sampleQuestion, orbitQuestion]) =
    [some (.num 1), some (.num 1)] from rfl]
  simp

/-! ## The failures of `generateQuiz` -/

theorem append_ne_of_head {a b : String} (m : String) {c d : Char} {ra rb : List Char}
    (ha : a.data = c :: ra) (hb : b.data = d :: rb) (hcd : c ≠ d) : a ++ m ≠ b := by
  intro h
  have h2 := congrArg String.data h
  rw [String.data_append, ha, hb] at h2
  simp only [List.cons_append, List.cons.injEq] at h2
  exact hcd h2.1

theorem handleFailure_other {e : JsError} (h1 : ¬ HasStatus e 401) (h2 : ¬ HasStatus e 429)
    (h3 : ¬ HasStatus e 402) (h4 : ¬ IsTimeout e) : handleFailure e = .generationFailed e := by
  cases e with
  | error m => rfl
  | typeError p => rfl
  | syntaxError t => rfl
  | generationFailed c => rfl
  | axios status code m =>
    cases status with
    | some s =>
      have n1 : s ≠ 401 := fun hs => h1 ⟨code, m, by rw [hs]⟩
      have n2 : s ≠ 429 := fun hs => h2 ⟨code, m, by rw [hs]⟩
      have n3 : s ≠ 402 := fun hs => h3 ⟨code, m, by rw [hs]⟩
      simp [handleFailure, n1, n2, n3]
    | none =>
      cases code with
      | none => rfl
      | some c =>
        have n : c ≠ "ECONNABORTED" := fun hc => h4 ⟨m, by rw [hc]⟩
        simp [handleFailure, n]

theorem generateQuiz_post_error {P : Platform} {key : String} {e : JsError}
    (documentText difficulty : String) (questionCount : QuestionCount)
    (hk : P.apiKey = some key) (hne : key ≠ "") (hsk : startsWithSk key = true)
    (hp : P.post (completionRequest key (buildPrompt documentText difficulty questionCount)) =
      .error e) :
    generateQuiz P documentText difficulty questionCount =
      ⟨.error (handleFailure e),
        [completionRequest key (buildPrompt documentText difficulty questionCount)]⟩ := by
  simp [generateQuiz, hk, hne, hsk, hp]

/-- C12: the `catch` block classifies by the shape of the error: a response with
status 401, 429 or 402 gives the invalid-key, rate-limit or quota error, no
response with code `ECONNABORTED` gives the timeout error, every other failure
gives 'Quiz generation failed: ' followed by the message of the error; the five
messages are pairwise distinct, and what `axios.post` throws is classified so
(a 429 is the rate-limit error, not the generic failure). -/
theorem handleFailure_classification (native : JsError → String) :
    (∀ e, HasStatus e 401 →
      handleFailure e = .error "Invalid OpenAI API key. Please check your API key.") ∧
    (∀ e, HasStatus e 429 →
      handleFailure e = .error "OpenAI API rate limit exceeded. Please try again later.") ∧
    (∀ e, HasStatus e 402 →
      handleFailure e = .error "OpenAI API quota exceeded. Please check your billing.") ∧
    (∀ e, IsTimeout e →
      handleFailure e = .error "OpenAI API request timed out. Please try again.") ∧
    (∀ e, ¬ HasStatus e 401 → ¬ HasStatus e 429 → ¬ HasStatus e 402 → ¬ IsTimeout e →
      handleFailure e = .generationFailed e ∧
      errorMessage native (handleFailure e) =
        "Quiz generation failed: " ++ errorMessage native e) ∧
    ["Invalid OpenAI API key. Please check your API key.",
      "OpenAI API rate limit exceeded. Please try again later.",
      "OpenAI API quota exceeded. Please check your billing.",
      "OpenAI API request timed out. Please try again."].Nodup ∧
    (∀ m : String, "Quiz generation failed: " ++ m ∉
      ["Invalid OpenAI API key. Please check your API key.",
        "OpenAI API rate limit exceeded. Please try again later.",
        "OpenAI API quota exceeded. Please check your billing.",
        "OpenAI API request timed out. Please try again."]) ∧
    (∀ (P : Platform) (key documentText difficulty : String) (questionCount : QuestionCount)
      (e : JsError), P.apiKey = some key → key ≠ "" → startsWithSk key = true →
      P.post (completionRequest key (buildPrompt documentText difficulty questionCount)) =
        .error e →
      (generateQuiz P documentText difficulty questionCount).result =
        .error (handleFailure e)) ∧
    (generateQuiz (mockPlatform (.error (.axios (some 429) none "Request failed with status code 429")))
      sunText "easy" (.int 1)).result =
        .error (.error "OpenAI API rate limit exceeded. Please try again later.") := by
  refine ⟨?_, ?_, ?_, ?_, ?_, by decide, ?_, ?_, rfl⟩
  · rintro e ⟨code, m, rfl⟩
    rfl
  · rintro e ⟨code, m, rfl⟩
    rfl
  · rintro e ⟨code, m, rfl⟩
    rfl
  · rintro e ⟨m, rfl⟩
    rfl
  · intro e h1 h2 h3 h4
    rw [handleFailure_other h1 h2 h3 h4]
    exact ⟨rfl, rfl⟩
  · intro m hm
    simp only [List.mem_cons, List.mem_singleton, List.not_mem_nil, or_false] at hm
    rcases hm with h | h | h | h
    · exact append_ne_of_head m (c := 'Q') (d := 'I') rfl rfl (by decide) h
    · exact append_ne_of_head m (c := 'Q') (d := 'O') rfl rfl (by decide) h
    · exact append_ne_of_head m (c := 'Q') (d := 'O') rfl rfl (by decide) h
    · exact append_ne_of_head m (c := 'Q') (d := 'O') rfl rfl (by decide) h
  · intro P key documentText difficulty questionCount e hk hne hsk hp
    rw [generateQuiz_post_error documentText difficulty questionCount hk hne hsk hp]

theorem startsWithSk_iff (key : String) :
    startsWithSk key = true ↔ ∃ rest : String, key = "sk-" ++ rest := by
  unfold startsWithSk
  rw [List.isPrefixOf_iff_prefix]
  constructor
  · rintro ⟨t, ht⟩
    refine ⟨String.mk t, ?_⟩
    apply String.ext
    rw [String.data_append, ← ht]
  · rintro ⟨rest, rfl⟩
    exact ⟨rest.data, by rw [String.data_append]⟩

/-- C14: with no API key configured (the variable unset or empty) `generateQuiz`
throws the failure whose message names that the key is not set; with a key that
does not start with `sk-` it throws the failure whose message names the invalid
key; in both cases it sends no request. -/
theorem generateQuiz_credentials (P : Platform) (documentText difficulty : String)
    (questionCount : QuestionCount) :
    (P.apiKey = none ∨ P.apiKey = some "" →
      generateQuiz P documentText difficulty questionCount =
        ⟨.error (.generationFailed
          (.error "OpenAI API key is not set in environment variables")), []⟩ ∧
      ∀ e, (generateQuiz P documentText difficulty questionCount).result = .error e →
        errorMessage P.nativeMessage e =
          "Quiz generation failed: OpenAI API key is not set in environment variables") ∧
    (∀ key : String, P.apiKey = some key → key ≠ "" → (¬ ∃ rest : String, key = "sk-" ++ rest) →
      generateQuiz P documentText difficulty questionCount =
        ⟨.error (.generationFailed
          (.error "OpenAI API key appears to be invalid (should start with sk-)")), []⟩ ∧
      ∀ e, (generateQuiz P documentText difficulty questionCount).result = .error e →
        errorMessage P.nativeMessage e =
          "Quiz generation failed: OpenAI API key appears to be invalid (should start with sk-)") := by
  constructor
  · intro h
    have hg : generateQuiz P documentText difficulty questionCount =
        ⟨.error (.generationFailed
          (.error "OpenAI API key is not set in environment variables")), []⟩ := by
      rcases h with h | h <;> simp [generateQuiz, h, handleFailure]
    refine ⟨hg, ?_⟩
    intro e he
    rw [hg] at he
    injection he with he
    subst he
    rfl
  · intro key hk hne hsk
    have hs : startsWithSk key = false := by
      cases hb : startsWithSk key with
      | false => rfl
      | true => exact absurd ((startsWithSk_iff key).mp hb) hsk
    have hg : generateQuiz P documentText difficulty questionCount =
        ⟨.error (.generationFailed
          (.error "OpenAI API key appears to be invalid (should start with sk-)")), []⟩ := by
      simp [generateQuiz, hk, hne, hs, handleFailure]
    refine ⟨hg, ?_⟩
    intro e he
    rw [hg] at he
    injection he with he
    subst he
    rfl

/-- A platform without a key and one with the key `my-key`: both fail before any
request. -/
theorem generateQuiz_credentials_witness :
    (generateQuiz { mockPlatform (.ok (completionData sampleReply)) with apiKey := none }
      sunText "easy" (.int 1)).requests = [] ∧
    (generateQuiz { mockPlatform (.ok (completionData sampleReply)) with apiKey := some "my-key" }
      sunText "easy" (.int 1)).result =
        .error (.generationFailed
          (.error "OpenAI API key appears to be invalid (should start with sk-)")) ∧
    (generateQuiz { mockPlatform (.ok (completionData sampleReply)) with apiKey := some "my-key" }
      sunText "easy" (.int 1)).requests = [] :=
  ⟨congrArg Outcome.requests
      ((generateQuiz_credentials
        { mockPlatform (.ok (completionData sampleReply)) with apiKey := none }
        sunText "easy" (.int 1)).1 (Or.inl rfl)).1,
    congrArg Outcome.result
      ((generateQuiz_credentials
        { mockPlatform (.ok (completionData sampleReply)) with apiKey := some "my-key" }
        sunText "easy" (.int 1)).2 "my-key" rfl (by decide)
        (fun h => absurd ((startsWithSk_iff "my-key").mpr h) (by decide))).1,
    congrArg Outcome.requests
      ((generateQuiz_credentials
        { mockPlatform (.ok (completionData sampleReply)) with apiKey := some "my-key" }
        sunText "easy" (.int 1)).2 "my-key" rfl (by decide)
        (fun h => absurd ((startsWithSk_iff "my-key").mpr h) (by decide))).1⟩

/-! ## The quiz `generateQuiz` returns -/

theorem validateQuiz_ok_true {quiz : JsValue} {b : Bool} (h : validateQuiz quiz = .ok b) :
    validateQuiz quiz = .ok true := by
  have hb : b = true := by
    unfold validateQuiz at h
    split at h
    · simp at h
    · split at h
      · simp at h
      · split at h
        · simp at h
        · split at h
          · split at h
            · simp at h
            · split at h
              · simp at h
              · injection h with h
                exact h.symm
          · simp at h
  rw [h, hb]

theorem quizFromResponse_ok {parse : String → Option JsValue} {aiResponse : String}
    {quiz : JsValue} (h : quizFromResponse parse aiResponse = .ok quiz) :
    parseResponse parse aiResponse = .ok quiz ∧ validateQuiz quiz = .ok true := by
  unfold quizFromResponse at h
  cases hp : parseResponse parse aiResponse with
  | error e => rw [hp] at h; simp at h
  | ok candidate =>
    rw [hp] at h
    simp only at h
    cases hv : validateQuiz candidate with
    | error e => rw [hv] at h; simp at h
    | ok b =>
      rw [hv] at h
      simp only [Except.ok.injEq] at h
      subst h
      exact ⟨rfl, validateQuiz_ok_true hv⟩

theorem generateQuiz_ok {P : Platform} {documentText difficulty : String}
    {questionCount : QuestionCount} {quiz : JsValue}
    (h : (generateQuiz P documentText difficulty questionCount).result = .ok quiz) :
    ∃ key data aiResponse,
      P.apiKey = some key ∧
      P.post (completionRequest key (buildPrompt documentText difficulty questionCount)) =
        .ok data ∧
      completionContent data = .ok (.str aiResponse) ∧
      parseResponse P.jsonParse aiResponse = .ok quiz ∧ validateQuiz quiz = .ok true := by
  unfold generateQuiz at h
  cases hk : P.apiKey with
  | none => rw [hk] at h; simp at h
  | some key =>
    rw [hk] at h
    simp only at h
    by_cases hne : key = ""
    · simp [hne] at h
    · cases hs : startsWithSk key with
      | false => simp [hne, hs] at h
      | true =>
        simp only [beq_iff_eq, hne, if_false, hs, Bool.not_true, Bool.false_eq_true] at h
        cases hp : P.post (completionRequest key
            (buildPrompt documentText difficulty questionCount)) with
        | error e => rw [hp] at h; simp at h
        | ok data =>
          rw [hp] at h
          simp only at h
          cases hc : completionContent data with
          | error e => rw [hc] at h; simp at h
          | ok content =>
            rw [hc] at h
            cases content with
            | str aiResponse =>
              simp only at h
              obtain ⟨h1, h2⟩ := quizFromResponse_ok h
              exact ⟨key, data, aiResponse, rfl, hp, hc, h1, h2⟩
            | undefined => simp at h
            | null => simp at h
            | bool b => simp at h
            | num n => simp at h
            | arr l => simp at h
            | obj l => simp at h

set_option maxRecDepth 100000 in
/-- C15: whenever `generateQuiz` succeeds, what it returns is the object the
response parser recovered from the completion text, which `validateQuiz` has
accepted and, being a check that returns `true`, has not changed; for the reply
that is a valid one-question quiz the result is that quiz, with
`totalQuestions` 1 and one question. -/
theorem generateQuiz_returns_candidate :
    (∀ (P : Platform) (documentText difficulty : String) (questionCount : QuestionCount)
      (quiz : JsValue),
      (generateQuiz P documentText difficulty questionCount).result = .ok quiz →
      ∃ key data aiResponse,
        P.apiKey = some key ∧
        P.post (completionRequest key (buildPrompt documentText difficulty questionCount)) =
          .ok data ∧
        completionContent data = .ok (.str aiResponse) ∧
        parseResponse P.jsonParse aiResponse = .ok quiz ∧ validateQuiz quiz = .ok true) ∧
    jsonParse sampleReply = some sampleQuiz ∧
    (generateQuiz (mockPlatform (.ok (completionData sampleReply))) sunText "easy"
      (.int 1)).result = .ok sampleQuiz ∧
    getProp sampleQuiz "totalQuestions" = .ok (.num 1) ∧
    (∃ question, getProp sampleQuiz "questions" = .ok (.arr [question])) := by
  refine ⟨fun _ _ _ _ _ h => generateQuiz_ok h, ?_, ?_, rfl, ⟨_, rfl⟩⟩
  · rfl
  · rfl

/-- The run on the sample reply succeeds, and its result is the parse of the
completion text. -/
theorem generateQuiz_returns_candidate_witness :
    (generateQuiz (mockPlatform (.ok (completionData sampleReply))) sunText "easy"
      (.int 1)).result = .ok sampleQuiz ∧
    ∃ key data aiResponse,
      (mockPlatform (.ok (completionData sampleReply))).apiKey = some key ∧
      (mockPlatform (.ok (completionData sampleReply))).post
        (completionRequest key (buildPrompt sunText "easy" (.int 1))) = .ok data ∧
      completionContent data = .ok (.str aiResponse) ∧
      parseResponse (mockPlatform (.ok (completionData sampleReply))).jsonParse aiResponse =
        .ok sampleQuiz ∧
      validateQuiz sampleQuiz = .ok true :=
  ⟨generateQuiz_returns_candidate.2.2.1,
    generateQuiz_returns_candidate.1 _ sunText "easy" (.int 1) sampleQuiz
      generateQuiz_returns_candidate.2.2.1⟩

/-! ## The upload handler -/

/-- C13, as the code has it: when `validateText` is false on the extracted text,
the handler answers with HTTP 400 without calling `generateQuiz`, so no
completion request is sent: the insufficient-text rejection when the text is not
blank, and the rejection of line 140 ('Could not extract text from the
document') when it is empty or white space only. -/
theorem uploadDocument_validator_gate (P : Platform)
    (extractText : String → String → Except JsError String) (f : UploadedFile)
    (d q documentText : String) (hd : d ≠ "") (hq : q ≠ "")
    (hx : extractText f.path f.originalname = .ok documentText)
    (hv : validateText (.str documentText) = false) :
    (uploadDocument P extractText (some f) (some d) (some q)).response.status = 400 ∧
    (uploadDocument P extractText (some f) (some d) (some q)).generated = false ∧
    (uploadDocument P extractText (some f) (some d) (some q)).requests = [] ∧
    (isBlank documentText = false →
      (uploadDocument P extractText (some f) (some d) (some q)).response =
        insufficientTextRejection) ∧
    (isBlank documentText = true →
      (uploadDocument P extractText (some f) (some d) (some q)).response =
        noTextRejection) := by
  cases hb : isBlank documentText with
  | true =>
    have hrun : uploadDocument P extractText (some f) (some d) (some q) =
        ⟨noTextRejection, false, []⟩ := by
      simp [uploadDocument, hd, hq, hx, hb]
    rw [hrun]
    exact ⟨rfl, rfl, rfl, fun h => absurd h (by decide), fun _ => rfl⟩
  | false =>
    have hrun : uploadDocument P extractText (some f) (some d) (some q) =
        ⟨insufficientTextRejection, false, []⟩ := by
      simp [uploadDocument, hd, hq, hx, hb, hv]
    rw [hrun]
    exact ⟨rfl, rfl, rfl, fun _ => rfl, fun h => absurd h (by decide)⟩

/-- A document whose text normalises to 40 characters: rejected as insufficient
before any request. -/
theorem uploadDocument_validator_gate_witness :
    validateText (.str "The sun is a star. It gives light, heat.") = false ∧
    (cleanText (.str "The sun is a star. It gives light, heat.")).length = 40 ∧
    (uploadDocument (mockPlatform (.ok (completionData sampleReply)))
      (fun _ _ => .ok "The sun is a star. It gives light, heat.")
      (some ⟨"uploads/document-1.pdf", "sun.pdf", 2048⟩) (some "easy") (some "1")).response =
        insufficientTextRejection ∧
    (uploadDocument (mockPlatform (.ok (completionData sampleReply)))
      (fun _ _ => .ok "The sun is a star. It gives light, heat.")
      (some ⟨"uploads/document-1.pdf", "sun.pdf", 2048⟩) (some "easy") (some "1")).requests = [] :=
  ⟨by decide, by decide,
    (uploadDocument_validator_gate (mockPlatform (.ok (completionData sampleReply)))
      (fun _ _ => .ok "The sun is a star. It gives light, heat.")
      ⟨"uploads/document-1.pdf", "sun.pdf", 2048⟩ "easy" "1"
      "The sun is a star. It gives light, heat." (by decide) (by decide) rfl
      (by decide)).2.2.2.1 (by decide),
    (uploadDocument_validator_gate (mockPlatform (.ok (completionData sampleReply)))
      (fun _ _ => .ok "The sun is a star. It gives light, heat.")
      ⟨"uploads/document-1.pdf", "sun.pdf", 2048⟩ "easy" "1"
      "The sun is a star. It gives light, heat." (by decide) (by decide) rfl
      (by decide)).2.2.1⟩

/-- C13 as stated fails on an empty extracted text: `validateText` is false on
it, but the handler stops at line 140 with 'Could not extract text from the
document', not with the insufficient-text rejection. -/
theorem uploadDocument_validator_gate_counterexample :
    validateText (.str "") = false ∧
    (uploadDocument (mockPlatform (.ok (completionData sampleReply)))
      (fun _ _ => .ok "")
      (some ⟨"uploads/document-1.pdf", "scan.pdf", 2048⟩) (some "easy") (some "1")).response.body =
        .error "Could not extract text from the document" ∧
    (uploadDocument (mockPlatform (.ok (completionData sampleReply)))
      (fun _ _ => .ok "")
      (some ⟨"uploads/document-1.pdf", "scan.pdf", 2048⟩) (some "easy") (some "1")).response ≠
        insufficientTextRejection := by
  refine ⟨rfl, rfl, ?_⟩
  intro h
  have hb := congrArg HttpResponse.body h
  have hbody : (uploadDocument (mockPlatform (.ok (completionData sampleReply)))
      (fun _ _ => .ok "")
      (some ⟨"uploads/document-1.pdf", "scan.pdf", 2048⟩) (some "easy")
      (some "1")).response.body = .error "Could not extract text from the document" := rfl
  rw [hbody] at hb
  simp only [insufficientTextRejection] at hb
  injection hb with hs
  exact absurd hs (by decide)

/-! ## The note in the prompt -/

/-- C27: in every prompt the first 8000 characters of the document are followed
at once by the text ' // Limit text to avoid token limits', inside the block
that opens after 'Study Material:' and closes with the next line: the note of
the template is part of the prompt. -/
theorem buildPrompt_note (documentText difficulty : String) (questionCount : QuestionCount) :
    buildPrompt documentText difficulty questionCount =
      promptOpening ++ difficulty ++ promptAfterDifficulty ++ questionCount.render ++
        " multiple-choice questions.\n\nStudy Material:\n\"\"\"\n" ++
        String.mk (documentText.data.take 8000) ++
        " // Limit text to avoid token limits" ++
        "\n\"\"\"\n\nRequirements:\n" ++
        instructionLine difficulty ++ promptClosing difficulty questionCount := by
  rw [buildPrompt_instructionLine]
  have h1 : promptMaterialNote =
      " // Limit text to avoid token limits" ++ "\n\"\"\"\n\nRequirements:\n" := by decide
  have h2 : promptBeforeMaterial = " multiple-choice questions.\n\nStudy Material:\n\"\"\"\n" := by
    decide
  simp only [promptBefore, h1, h2, substringTo, String.append_assoc]

/-! ## The sample text and the second normalisation -/

/-- C23, as the code has it: the sample text of the test route is its own
normalisation and has 104 characters. -/
theorem cleanText_sunText :
    cleanText (.str sunText) = sunText ∧ (cleanText (.str sunText)).length = 104 := by
  decide

/-- C23 as stated fails: the normalised sample text does not have 106
characters. -/
theorem cleanText_sunText_counterexample :
    (cleanText (.str sunText)).length ≠ 106 := by
  decide

theorem cleanText_fixed_of_allowed (x : String) (h : ∀ c ∈ x.data, isAllowed c = true) :
    cleanText (.str (cleanText (.str x))) = cleanText (.str x) := by
  apply String.ext
  rw [data_cleanText, data_cleanText, cleanChars_idem_of_allowed h]

/-- Where nothing is stripped the second normalisation inside `validateText`
does not change the verdict: for text of allow-listed characters,
`validateText(cleanText(x))` is true exactly when `cleanText(x)` has at least 100
characters. -/
theorem validateText_cleanText (x : String) (h : ∀ c ∈ x.data, isAllowed c = true) :
    validateText (.str (cleanText (.str x))) = true ↔ 100 ≤ (cleanText (.str x)).length := by
  rw [validateText_str_iff, cleanText_fixed_of_allowed x h]

/-- The sample text is allow-listed, and its normalisation passes the validator
as its length of 104 says. -/
theorem validateText_cleanText_example :
    (∀ c ∈ sunText.data, isAllowed c = true) ∧
    (validateText (.str (cleanText (.str sunText))) = true ↔
      100 ≤ (cleanText (.str sunText)).length) :=
  ⟨by decide, validateText_cleanText sunText (by decide)⟩

theorem length_replaceRunsFrom_le (p : Char → Bool) (r : Char) (b : Bool) (l : List Char) :
    (replaceRunsFrom p r b l).length ≤ l.length := by
  induction l generalizing b with
  | nil => exact Nat.le_refl _
  | cons c cs ih =>
    cases hc : p c with
    | true =>
      cases b with
      | true =>
        simp only [replaceRunsFrom, hc, if_true, List.length_cons]
        exact Nat.le_succ_of_le (ih true)
      | false =>
        simp only [replaceRunsFrom, hc, if_true, Bool.false_eq_true, if_false,
          List.length_cons]
        exact Nat.succ_le_succ (ih true)
    | false =>
      simp only [replaceRunsFrom, hc, Bool.false_eq_true, if_false, List.length_cons]
      exact Nat.succ_le_succ (ih false)

theorem length_trim_le (l : List Char) : (trim l).length ≤ l.length := by
  rw [trim_eq]
  exact Nat.le_trans (List.rdropWhile_prefix _ _).length_le (List.dropWhile_suffix _).length_le

theorem length_cleanChars_le (l : List Char) : (cleanChars l).length ≤ l.length := by
  unfold cleanChars replaceRuns
  refine Nat.le_trans (length_trim_le _) ?_
  refine Nat.le_trans (List.length_filter_le _ _) ?_
  exact Nat.le_trans (length_replaceRunsFrom_le _ _ _ _) (length_replaceRunsFrom_le _ _ _ _)

theorem length_cleanText_le (s : String) : (cleanText (.str s)).length ≤ s.length := by
  show (cleanText (.str s)).data.length ≤ s.data.length
  rw [data_cleanText]
  exact length_cleanChars_le _

/-- C24 fails on `hashText`: it normalises to 100 characters, two of them
adjacent blanks left by the `#` that line 55 strips after the collapse of line
53; the normalisation inside `validateText` collapses them to 99 characters, and
the verdict on the normalised text is false although it has 100 characters. The
second normalisation can only turn a verdict false: a true verdict on
`cleanText(x)` always means at least 100 characters, and on text of allow-listed
characters the two agree. -/
theorem validateText_cleanText_verdict_changes :
    (cleanText (.str hashText)).length = 100 ∧
    (cleanText (.str (cleanText (.str hashText)))).length = 99 ∧
    validateText (.str (cleanText (.str hashText))) = false ∧
    ¬ (validateText (.str (cleanText (.str hashText))) = true ↔
      100 ≤ (cleanText (.str hashText)).length) ∧
    (∀ x : String, validateText (.str (cleanText (.str x))) = true →
      100 ≤ (cleanText (.str x)).length) ∧
    (∀ x : String, (∀ c ∈ x.data, isAllowed c = true) →
      (validateText (.str (cleanText (.str x))) = true ↔
        100 ≤ (cleanText (.str x)).length)) := by
  refine ⟨by decide, by decide, by decide, by decide, ?_, validateText_cleanText⟩
  intro x h
  have h1 := (validateText_str_iff (cleanText (.str x))).mp h
  exact Nat.le_trans h1 (length_cleanText_le _)

/-! ## The text extractor -/

/-- C21: `extractText` dispatches on the lower-cased extension of the declared
name alone: `.pdf` gives `cleanText` of the PDF parser's text, `.docx` gives
`cleanText` of the DOCX parser's text (a parser error is rethrown with the
extension), `.pptx` fails with the message that PPTX is disabled, and every
other extension fails as an unsupported file type without a parser being read. -/
theorem extractText_dispatch (native : JsError → String) (R : Readers)
    (filePath originalName : String) :
    (toLowerCase (R.extname originalName) = ".pdf" →
      extractText native R filePath originalName =
        match R.pdfText filePath with
        | .ok text => .ok (cleanText text)
        | .error e => .error (.error ("Failed to extract text from .pdf file: " ++
            ("PDF extraction failed: " ++ errorMessage native e)))) ∧
    (toLowerCase (R.extname originalName) = ".docx" →
      extractText native R filePath originalName =
        match R.docxText filePath with
        | .ok text => .ok (cleanText text)
        | .error e => .error (.error ("Failed to extract text from .docx file: " ++
            ("DOCX extraction failed: " ++ errorMessage native e)))) ∧
    (toLowerCase (R.extname originalName) = ".pptx" →
      extractText native R filePath originalName =
        .error (.error ("Failed to extract text from .pptx file: " ++
          "PPTX support is temporarily disabled. Please use PDF or DOCX files."))) ∧
    (toLowerCase (R.extname originalName) ∉ [".pdf", ".docx", ".pptx"] →
      extractText native R filePath originalName =
        .error (.error ("Failed to extract text from " ++ toLowerCase (R.extname originalName) ++
          " file: " ++ ("Unsupported file type: " ++ toLowerCase (R.extname originalName))))) := by
  refine ⟨?_, ?_, ?_, ?_⟩
  · intro h
    simp only [extractText, extractByExtension, h, extractFromPDF]
    cases R.pdfText filePath <;> rfl
  · intro h
    simp only [extractText, extractByExtension, h, extractFromDOCX]
    cases R.docxText filePath <;> rfl
  · intro h
    simp only [extractText, extractByExtension, h]
    rfl
  · intro h
    simp only [List.mem_cons, List.mem_singleton, List.not_mem_nil, or_false, not_or] at h
    obtain ⟨h1, h2, h3⟩ := h
    simp only [extractText, extractByExtension, beq_iff_eq, h1, h2, h3, if_false]
    rfl

/-- The name `Notes.PDF` is read as a PDF, `slides.pptx` is refused as PPTX and
`notes.txt` as unsupported, whatever the parsers would yield. -/
theorem extractText_dispatch_witness :
    extractText (fun _ => "native error")
      (mockReaders (.ok (.str "  Hello   world ")) (.ok (.str "other"))) "uploads/document-1.PDF"
      "Notes.PDF" = .ok "Hello world" ∧
    extractText (fun _ => "native error")
      (mockReaders (.ok (.str "  Hello   world ")) (.ok (.str "other"))) "uploads/document-2.pptx"
      "slides.pptx" =
        .error (.error ("Failed to extract text from .pptx file: " ++
          "PPTX support is temporarily disabled. Please use PDF or DOCX files.")) ∧
    extractText (fun _ => "native error")
      (mockReaders (.ok (.str "  Hello   world ")) (.ok (.str "other"))) "uploads/document-3.txt"
      "notes.txt" =
        .error (.error "Failed to extract text from .txt file: Unsupported file type: .txt") :=
  ⟨(extractText_dispatch (fun _ => "native error")
      (mockReaders (.ok (.str "  Hello   world ")) (.ok (.str "other"))) "uploads/document-1.PDF"
      "Notes.PDF").1 (by decide),
    (extractText_dispatch (fun _ => "native error")
      (mockReaders (.ok (.str "  Hello   world ")) (.ok (.str "other"))) "uploads/document-2.pptx"
      "slides.pptx").2.2.1 (by decide),
    (extractText_dispatch (fun _ => "native error")
      (mockReaders (.ok (.str "  Hello   world ")) (.ok (.str "other"))) "uploads/document-3.txt"
      "notes.txt").2.2.2 (by decide)⟩

/-! ## The status of a failed upload -/

theorem uploadDocument_of_generate {P : Platform}
    {extractText : String → String → Except JsError String} {f : UploadedFile}
    {d q documentText : String} (hd : d ≠ "") (hq : q ≠ "")
    (hx : extractText f.path f.originalname = .ok documentText)
    (hb : isBlank documentText = false) (hv : validateText (.str documentText) = true) :
    uploadDocument P extractText (some f) (some d) (some q) =
      match (generateQuiz P documentText d (P.parseInt q)).result with
      | .error e =>
        ⟨internalError P e, true, (generateQuiz P documentText d (P.parseInt q)).requests⟩
      | .ok quiz =>
        ⟨⟨200, .success quiz f.originalname d (P.parseInt q) documentText.length⟩, true,
          (generateQuiz P documentText d (P.parseInt q)).requests⟩ := by
  simp [uploadDocument, hd, hq, hx, hb, hv]

theorem uploadDocument_status_400 (P : Platform)
    (extractText : String → String → Except JsError String) (file : Option UploadedFile)
    (difficulty questionCount : Option String)
    (h : (uploadDocument P extractText file difficulty questionCount).response.status = 400) :
    (uploadDocument P extractText file difficulty questionCount).generated = false := by
  cases file with
  | none => rfl
  | some f =>
    cases difficulty with
    | none => simp [uploadDocument]
    | some d =>
      cases questionCount with
      | none => simp [uploadDocument]
      | some q =>
        by_cases hdq : (d == "" || q == "") = true
        · simp [uploadDocument, hdq]
        · cases hx : extractText f.path f.originalname with
          | error e => simp [uploadDocument, hdq, hx]
          | ok documentText =>
            cases hb : isBlank documentText with
            | true => simp [uploadDocument, hdq, hx, hb]
            | false =>
              cases hv : validateText (.str documentText) with
              | false => simp [uploadDocument, hdq, hx, hb, hv]
              | true =>
                simp only [Bool.or_eq_true, beq_iff_eq, not_or] at hdq
                rw [uploadDocument_of_generate hdq.1 hdq.2 hx hb hv] at h
                cases hr : (generateQuiz P documentText d (P.parseInt q)).result with
                | error e =>
                  rw [hr] at h
                  simp [internalError] at h
                | ok quiz =>
                  rw [hr] at h
                  simp at h

/-- C22, as the code has it: whatever `generateQuiz` throws, be it the
classified error of a remote 401, 429 or 402, a structural problem of the quiz
reply or any other failure, the upload endpoint answers with status 500 and the
error 'Failed to process document and generate quiz'; the same for what the
extraction throws; a status 400 comes only from the checks made before
`generateQuiz` is called. -/
theorem uploadDocument_failure_status :
    (∀ (P : Platform) (extractText : String → String → Except JsError String)
      (f : UploadedFile) (d q documentText : String) (e : JsError),
      d ≠ "" → q ≠ "" → extractText f.path f.originalname = .ok documentText →
      isBlank documentText = false → validateText (.str documentText) = true →
      (generateQuiz P documentText d (P.parseInt q)).result = .error e →
      (uploadDocument P extractText (some f) (some d) (some q)).response = internalError P e ∧
      (uploadDocument P extractText (some f) (some d) (some q)).response.status = 500 ∧
      (uploadDocument P extractText (some f) (some d) (some q)).generated = true) ∧
    (∀ (P : Platform) (extractText : String → String → Except JsError String)
      (f : UploadedFile) (d q : String) (e : JsError),
      d ≠ "" → q ≠ "" → extractText f.path f.originalname = .error e →
      (uploadDocument P extractText (some f) (some d) (some q)).response = internalError P e) ∧
    (∀ (P : Platform) (extractText : String → String → Except JsError String)
      (file : Option UploadedFile) (difficulty questionCount : Option String),
      (uploadDocument P extractText file difficulty questionCount).response.status = 400 →
      (uploadDocument P extractText file difficulty questionCount).generated = false) := by
  refine ⟨?_, ?_, uploadDocument_status_400⟩
  · intro P extractText f d q documentText e hd hq hx hb hv he
    rw [uploadDocument_of_generate hd hq hx hb hv, he]
    exact ⟨rfl, rfl, rfl⟩
  · intro P extractText f d q e hd hq hx
    simp [uploadDocument, hd, hq, hx]

/-- A completion service that answers 429: `generateQuiz` throws the rate-limit
error and the upload endpoint answers 500. -/
theorem uploadDocument_failure_status_witness :
    (generateQuiz (mockPlatform (.error (.axios (some 429) none "Request failed with status code 429")))
      sunText "easy" (.int 1)).result =
        .error (.error "OpenAI API rate limit exceeded. Please try again later.") ∧
    (uploadDocument
      (mockPlatform (.error (.axios (some 429) none "Request failed with status code 429")))
      (fun _ _ => .ok sunText) (some ⟨"uploads/document-1.pdf", "sun.pdf", 2048⟩)
      (some "easy") (some "1")).response.status = 500 :=
  ⟨rfl,
    (uploadDocument_failure_status.1
      (mockPlatform (.error (.axios (some 429) none "Request failed with status code 429")))
      (fun _ _ => .ok sunText) ⟨"uploads/document-1.pdf", "sun.pdf", 2048⟩ "easy" "1" sunText
      (.error "OpenAI API rate limit exceeded. Please try again later.")
      (by decide) (by decide) rfl (by decide) (by decide) rfl).2.1⟩

set_option maxRecDepth 100000 in
/-- C22 as stated fails: with the completion service answering 401, 429 or 402
the upload endpoint answers 500, not the mirrored status; and for a reply whose
quiz has no question it answers 500, not 400. -/
theorem uploadDocument_status_counterexample :
    (uploadDocument
      (mockPlatform (.error (.axios (some 401) none "Request failed with status code 401")))
      (fun _ _ => .ok sunText) (some ⟨"uploads/document-1.pdf", "sun.pdf", 2048⟩)
      (some "easy") (some "1")).response.status = 500 ∧
    (uploadDocument
      (mockPlatform (.error (.axios (some 429) none "Request failed with status code 429")))
      (fun _ _ => .ok sunText) (some ⟨"uploads/document-1.pdf", "sun.pdf", 2048⟩)
      (some "easy") (some "1")).response.status = 500 ∧
    (uploadDocument
      (mockPlatform (.error (.axios (some 402) none "Request failed with status code 402")))
      (fun _ _ => .ok sunText) (some ⟨"uploads/document-1.pdf", "sun.pdf", 2048⟩)
      (some "easy") (some "1")).response.status = 500 ∧
    (generateQuiz (mockPlatform (.ok (completionData "\x7b\"questions\": []\x7d")))
      sunText "easy" (.int 1)).result =
        .error (.generationFailed (.error "Quiz must contain at least one question")) ∧
    (uploadDocument (mockPlatform (.ok (completionData "\x7b\"questions\": []\x7d")))
      (fun _ _ => .ok sunText) (some ⟨"uploads/document-1.pdf", "sun.pdf", 2048⟩)
      (some "easy") (some "1")).response.status = 500 := by
  refine ⟨?_, ?_, ?_, ?_, ?_⟩
  · decide
  · decide
  · decide
  · rfl
  · decide

/-! ## The quiz state machine -/

theorem mem_setAnswer {index : Int} {answer : String} {l : List (Int × String)}
    {entry : Int × String} (h : entry ∈ setAnswer index answer l) :
    entry = (index, answer) ∨ entry ∈ l := by
  induction l with
  | nil =>
    simp only [setAnswer, List.mem_singleton] at h
    exact Or.inl h
  | cons x xs ih =>
    obtain ⟨i, a⟩ := x
    by_cases hi : i = index
    · subst hi
      simp only [setAnswer, beq_self_eq_true, if_true, List.mem_cons] at h
      rcases h with h | h
      · exact Or.inl h
      · exact Or.inr (List.mem_cons_of_mem _ h)
    · have hne : (i == index) = false := by simp [hi]
      simp only [setAnswer, hne, Bool.false_eq_true, if_false, List.mem_cons] at h
      rcases h with h | h
      · exact Or.inr (by simp [h])
      · exact (ih h).imp id (List.mem_cons_of_mem _)

theorem keys_setAnswer_of_mem {index : Int} (answer : String) {l : List (Int × String)}
    (h : index ∈ l.map Prod.fst) :
    (setAnswer index answer l).map Prod.fst = l.map Prod.fst := by
  induction l with
  | nil => simp at h
  | cons x xs ih =>
    obtain ⟨i, a⟩ := x
    by_cases hi : i = index
    · subst hi
      simp [setAnswer]
    · have hne : (i == index) = false := by simp [hi]
      have hx : index ∈ xs.map Prod.fst := by
        simp only [List.map_cons, List.mem_cons] at h
        rcases h with h | h
        · exact absurd h.symm hi
        · exact h
      simp [setAnswer, hne, ih hx]

theorem keys_setAnswer_of_not_mem {index : Int} (answer : String) {l : List (Int × String)}
    (h : index ∉ l.map Prod.fst) :
    (setAnswer index answer l).map Prod.fst = l.map Prod.fst ++ [index] := by
  induction l with
  | nil => rfl
  | cons x xs ih =>
    obtain ⟨i, a⟩ := x
    simp only [List.map_cons, List.mem_cons, not_or] at h
    have hne : (i == index) = false := by simp [Ne.symm h.1]
    simp [setAnswer, hne, ih h.2]

theorem nodup_keys_setAnswer (index : Int) (answer : String) {l : List (Int × String)}
    (h : (l.map Prod.fst).Nodup) : ((setAnswer index answer l).map Prod.fst).Nodup := by
  by_cases hm : index ∈ l.map Prod.fst
  · rw [keys_setAnswer_of_mem answer hm]
    exact h
  · rw [keys_setAnswer_of_not_mem answer hm]
    exact List.Nodup.append h (List.nodup_singleton _) (by simpa using hm)

theorem quizStep_invariant {n : Nat} {s : QuizState} (h : QuizInvariant n s)
    (action : QuizAction) : QuizInvariant n (quizStep n s action) := by
  obtain ⟨h1, h2, h3, h4⟩ := h
  cases action with
  | select answer =>
    simp only [quizStep, handleAnswerSelect]
    split
    · exact ⟨h1, h2, h3, h4⟩
    · exact ⟨h1, h2, h3, h4⟩
  | submit =>
    simp only [quizStep, handleAnswerSubmit]
    split
    · exact ⟨h1, h2, h3, h4⟩
    · refine ⟨h1, h2, ?_, nodup_keys_setAnswer _ _ h4⟩
      intro entry he
      rcases mem_setAnswer he with rfl | he
      · exact ⟨h1, h2⟩
      · exact h3 entry he
  | next =>
    simp only [quizStep, handleNext]
    split
    · rename_i hlt
      exact ⟨by show 0 ≤ s.currentQuestion + 1; omega,
        by show s.currentQuestion + 1 < (n : Int); omega, h3, h4⟩
    · exact ⟨h1, h2, h3, h4⟩
  | previous =>
    simp only [quizStep, handlePrevious]
    split
    · rename_i hgt
      exact ⟨by show 0 ≤ s.currentQuestion - 1; omega,
        by show s.currentQuestion - 1 < (n : Int); omega, h3, h4⟩
    · exact ⟨h1, h2, h3, h4⟩

theorem foldl_quizStep_invariant {n : Nat} (actions : List QuizAction) {s : QuizState}
    (h : QuizInvariant n s) : QuizInvariant n (actions.foldl (quizStep n) s) := by
  induction actions generalizing s with
  | nil => exact h
  | cons a rest ih => exact ih (quizStep_invariant h a)

theorem quizRun_invariant {n : Nat} (hn : 0 < n) (actions : List QuizAction) :
    QuizInvariant n (quizRun n actions) := by
  apply foldl_quizStep_invariant
  refine ⟨le_refl _, ?_, ?_, ?_⟩
  · show (0 : Int) < n
    omega
  · intro entry he
    cases he
  · exact List.nodup_nil

theorem questionAt_mem {questions : List JsValue} {index : Int} (h0 : 0 ≤ index)
    (h1 : index < questions.length) : questionAt questions index ∈ questions := by
  have hlt : index.toNat < questions.length := by omega
  simp only [questionAt, h0, if_true, List.getElem?_eq_getElem hlt]
  exact List.getElem_mem hlt

/-- C25: for a quiz with at least one question, after any sequence of select,
submit, next and previous actions from the first render the index of the
question shown is from 0 to n - 1, so `questions[currentQuestion]` is a question
of the quiz, and every index recorded in `userAnswers` is from 0 to n - 1. -/
theorem quizRun_navigation (questions : List JsValue) (hn : questions ≠ [])
    (actions : List QuizAction) :
    0 ≤ (quizRun questions.length actions).currentQuestion ∧
    (quizRun questions.length actions).currentQuestion < questions.length ∧
    questionAt questions (quizRun questions.length actions).currentQuestion ∈ questions ∧
    ∀ entry ∈ (quizRun questions.length actions).userAnswers,
      0 ≤ entry.1 ∧ entry.1 < questions.length := by
  have hpos : 0 < questions.length := List.length_pos.mpr hn
  obtain ⟨h1, h2, h3, _⟩ := quizRun_invariant hpos actions
  exact ⟨h1, h2, questionAt_mem h1 h2, h3⟩

/-- A run on a quiz of two questions that presses previous on the first
question and next beyond the last. -/
theorem quizRun_navigation_witness :
    [sampleQuestion, orbitQuestion] ≠ [] ∧
    (quizRun 2 [.previous, .select "A", .submit, .next, .select "C", .submit, .next,
      .next]).currentQuestion = 1 ∧
    (quizRun 2 [.previous, .select "A", .submit, .next, .select "C", .submit, .next,
      .next]).userAnswers = [(0, "A"), (1, "C")] ∧
    questionAt [sampleQuestion, orbitQuestion]
      (quizRun [sampleQuestion, orbitQuestion].length
        [.previous, .select "A", .submit, .next, .select "C", .submit, .next,
          .next]).currentQuestion ∈ [sampleQuestion, orbitQuestion] :=
  ⟨by simp, by decide, by decide,
    (quizRun_navigation [sampleQuestion, orbitQuestion] (by simp)
      [.previous, .select "A", .submit, .next, .select "C", .submit, .next, .next]).2.2.1⟩

/-! ## The score -/

theorem lookup_eq_some_of_nodup {l : List (Int × String)} (h : (l.map Prod.fst).Nodup)
    (i : Int) (a : String) : l.lookup i = some a ↔ (i, a) ∈ l := by
  induction l with
  | nil => simp
  | cons x xs ih =>
    obtain ⟨j, b⟩ := x
    simp only [List.map_cons, List.nodup_cons] at h
    by_cases hij : i = j
    · subst hij
      have hnot : (i, a) ∉ xs := fun hm => h.1 (List.mem_map.mpr ⟨(i, a), hm, rfl⟩)
      simp only [List.lookup_cons_self, Option.some.injEq, List.mem_cons, Prod.mk.injEq,
        true_and, hnot, or_false]
      exact eq_comm
    · have hne : (i == j) = false := by simp [hij]
      simp only [List.lookup_cons, hne, List.mem_cons, Prod.mk.injEq, hij, false_and, false_or]
      exact ih h.2

theorem getProp_of_value {q : JsValue} (h1 : q ≠ .null) (h2 : q ≠ .undefined) (key : String) :
    getProp q key = .ok (match memberOf q key with
      | some v => v
      | none => .undefined) := by
  cases q with
  | null => exact absurd rfl h1
  | undefined => exact absurd rfl h2
  | obj members =>
    simp only [getProp, memberOf]
    cases members.lookup key <;> rfl
  | bool b => rfl
  | num n => rfl
  | str s => rfl
  | arr l => rfl

theorem answerIsCorrect_of_mem {questions : List JsValue} {s : QuizState}
    (hq : ∀ q ∈ questions, q ≠ .null ∧ q ≠ .undefined)
    (hinv : QuizInvariant questions.length s) {i : Int} {a : String}
    (hm : (i, a) ∈ s.userAnswers) :
    answerIsCorrect questions i a = .ok (recordedCorrect questions s.userAnswers i.toNat) := by
  obtain ⟨h0, h1⟩ := hinv.recorded (i, a) hm
  have hlt : i.toNat < questions.length := by
    have : (i : Int) < questions.length := h1
    omega
  have hcast : ((i.toNat : Nat) : Int) = i := Int.toNat_of_nonneg h0
  have hlook : s.userAnswers.lookup ((i.toNat : Nat) : Int) = some a := by
    rw [hcast]
    exact (lookup_eq_some_of_nodup hinv.nodup i a).mpr hm
  have hqa : questionAt questions i = questions[i.toNat] := by
    simp only [questionAt]
    rw [if_pos h0, List.getElem?_eq_getElem hlt]
  obtain ⟨hn1, hn2⟩ := hq questions[i.toNat] (List.getElem_mem hlt)
  simp only [answerIsCorrect, hqa, getProp_of_value hn1 hn2, recordedCorrect, hlook,
    List.getElem?_eq_getElem hlt]
  cases memberOf questions[i.toNat] "correctAnswer" <;> rfl

theorem countCorrect_eq_filter {questions : List JsValue} {s : QuizState}
    (hq : ∀ q ∈ questions, q ≠ .null ∧ q ≠ .undefined)
    (hinv : QuizInvariant questions.length s) (entries : List (Int × String))
    (hsub : ∀ e ∈ entries, e ∈ s.userAnswers) :
    countCorrect questions entries =
      .ok ((entries.filter
        (fun e => recordedCorrect questions s.userAnswers e.1.toNat)).length) := by
  induction entries with
  | nil => rfl
  | cons x xs ih =>
    obtain ⟨i, a⟩ := x
    have hx := answerIsCorrect_of_mem hq hinv (hsub (i, a) (by simp))
    have hxs := ih (fun e he => hsub e (List.mem_cons_of_mem _ he))
    simp only [countCorrect, hx, hxs, List.filter_cons]
    cases recordedCorrect questions s.userAnswers i.toNat <;> simp

theorem filter_length_eq_correctCount {questions : List JsValue} {s : QuizState}
    (hinv : QuizInvariant questions.length s) :
    (s.userAnswers.filter
      (fun e => recordedCorrect questions s.userAnswers e.1.toNat)).length =
      correctCount questions s.userAnswers := by
  have hmap : ((s.userAnswers.filter
      (fun e => recordedCorrect questions s.userAnswers e.1.toNat)).map
        (fun e => e.1.toNat)).length =
      (s.userAnswers.filter
        (fun e => recordedCorrect questions s.userAnswers e.1.toNat)).length :=
    List.length_map _ _
  rw [← hmap, correctCount]
  apply List.Perm.length_eq
  have hnd1 : (s.userAnswers.filter
      (fun e => recordedCorrect questions s.userAnswers e.1.toNat)).Nodup := by
    apply List.Nodup.filter
    exact List.Nodup.of_map Prod.fst hinv.nodup
  have hnd : ((s.userAnswers.filter
      (fun e => recordedCorrect questions s.userAnswers e.1.toNat)).map
        (fun e => e.1.toNat)).Nodup := by
    apply List.Nodup.map_on _ hnd1
    intro x hx y hy hxy
    have hx' := (List.mem_filter.mp hx).1
    have hy' := (List.mem_filter.mp hy).1
    have h0x := (hinv.recorded x hx').1
    have h0y := (hinv.recorded y hy').1
    have hfst : x.1 = y.1 := by
      have hxy' : x.1.toNat = y.1.toNat := hxy
      omega
    have hlx := (lookup_eq_some_of_nodup hinv.nodup x.1 x.2).mpr hx'
    have hly := (lookup_eq_some_of_nodup hinv.nodup y.1 y.2).mpr hy'
    rw [hfst, hly] at hlx
    injection hlx with hsnd
    exact Prod.ext hfst hsnd.symm
  rw [List.perm_ext_iff_of_nodup hnd (List.Nodup.filter _ (List.nodup_range _))]
  intro i
  simp only [List.mem_map, List.mem_filter, List.mem_range]
  constructor
  · rintro ⟨e, ⟨he, hp⟩, rfl⟩
    refine ⟨?_, hp⟩
    obtain ⟨h0, h1⟩ := hinv.recorded e he
    have : (e.1 : Int) < questions.length := h1
    omega
  · rintro ⟨_, hp⟩
    have hp' := hp
    simp only [recordedCorrect] at hp'
    cases hl : s.userAnswers.lookup (i : Int) with
    | none => rw [hl] at hp'; simp at hp'
    | some a =>
      have hm := (lookup_eq_some_of_nodup hinv.nodup (i : Int) a).mp hl
      exact ⟨((i : Int), a), ⟨hm, by simpa using hp⟩, by simp⟩

theorem correctCount_le (questions : List JsValue) (userAnswers : List (Int × String)) :
    correctCount questions userAnswers ≤ questions.length := by
  unfold correctCount
  calc ((List.range questions.length).filter (recordedCorrect questions userAnswers)).length
      ≤ (List.range questions.length).length := List.length_filter_le _ _
    _ = questions.length := List.length_range _

theorem percentage_bounds {fl : ℚ → ℚ} (hfl : IsRounding fl) {k n : Nat} (hn : 0 < n)
    (hk : k ≤ n) : 0 ≤ percentage fl k n ∧ percentage fl k n ≤ 100 := by
  have hnq : (0 : ℚ) < (n : ℚ) := by exact_mod_cast hn
  have hq0 : (0 : ℚ) ≤ (k : ℚ) / (n : ℚ) := div_nonneg (by exact_mod_cast Nat.zero_le k) hnq.le
  have hq1 : (k : ℚ) / (n : ℚ) ≤ 1 := by
    rw [div_le_one hnq]
    exact_mod_cast hk
  have hx0 : 0 ≤ fl ((k : ℚ) / (n : ℚ)) := by
    have := hfl.mono hq0
    rwa [hfl.zero] at this
  have hx1 : fl ((k : ℚ) / (n : ℚ)) ≤ 1 := by
    have := hfl.mono hq1
    rwa [hfl.one] at this
  have hy0 : 0 ≤ fl (fl ((k : ℚ) / (n : ℚ)) * 100) := by
    have := hfl.mono (show (0 : ℚ) ≤ fl ((k : ℚ) / (n : ℚ)) * 100 by nlinarith)
    rwa [hfl.zero] at this
  have hy1 : fl (fl ((k : ℚ) / (n : ℚ)) * 100) ≤ 100 := by
    have := hfl.mono (show fl ((k : ℚ) / (n : ℚ)) * 100 ≤ (100 : ℚ) by nlinarith)
    rwa [hfl.hundred] at this
  unfold percentage
  constructor
  · apply Int.floor_nonneg.mpr
    linarith
  · have hlt : ⌊fl (fl ((k : ℚ) / (n : ℚ)) * 100) + 1 / 2⌋ < 101 := by
      rw [Int.floor_lt]
      push_cast
      linarith
    omega

theorem grade_iff (p : Int) :
    (grade p = "Excellent" ↔ 80 ≤ p) ∧
    (grade p = "Good" ↔ 60 ≤ p ∧ p < 80) ∧
    (grade p = "Needs Improvement" ↔ p < 60) := by
  unfold grade
  split_ifs with h80 h60 <;> refine ⟨?_, ?_, ?_⟩ <;> constructor <;> intro h <;>
    first
    | rfl
    | omega
    | exact absurd h (by decide)

/-- C26: for a quiz with at least one question (none of them `null`), after any
sequence of actions the value `correctAnswers` that `handleNext` computes is the
number of question indices whose recorded answer equals the question's
`correctAnswer`, so it is at most n; the percentage `Results` computes from it
is from 0 to 100 under any rounding of the division and the product that is
monotone and keeps 0, 1 and 100; and the grade is 'Excellent' exactly from 80
up, 'Good' exactly from 60 to below 80, and 'Needs Improvement' below 60. -/
theorem quiz_score (questions : List JsValue) (hn : questions ≠ [])
    (hq : ∀ q ∈ questions, q ≠ .null ∧ q ≠ .undefined) (actions : List QuizAction)
    (fl : ℚ → ℚ) (hfl : IsRounding fl) :
    ∃ correctAnswers,
      countCorrect questions (quizRun questions.length actions).userAnswers =
        .ok correctAnswers ∧
      correctAnswers =
        correctCount questions (quizRun questions.length actions).userAnswers ∧
      correctAnswers ≤ questions.length ∧
      0 ≤ percentage fl correctAnswers questions.length ∧
      percentage fl correctAnswers questions.length ≤ 100 ∧
      (grade (percentage fl correctAnswers questions.length) = "Excellent" ↔
        80 ≤ percentage fl correctAnswers questions.length) ∧
      (grade (percentage fl correctAnswers questions.length) = "Good" ↔
        60 ≤ percentage fl correctAnswers questions.length ∧
          percentage fl correctAnswers questions.length < 80) ∧
      (grade (percentage fl correctAnswers questions.length) = "Needs Improvement" ↔
        percentage fl correctAnswers questions.length < 60) := by
  have hpos : 0 < questions.length := List.length_pos.mpr hn
  have hinv := quizRun_invariant hpos actions
  have hcount := countCorrect_eq_filter hq hinv _ (fun e he => he)
  rw [filter_length_eq_correctCount hinv] at hcount
  have hle := correctCount_le questions (quizRun questions.length actions).userAnswers
  obtain ⟨hp0, hp1⟩ := percentage_bounds hfl hpos hle
  obtain ⟨hg1, hg2, hg3⟩ :=
    grade_iff (percentage fl
      (correctCount questions (quizRun questions.length actions).userAnswers) questions.length)
  exact ⟨_, hcount, rfl, hle, hp0, hp1, hg1, hg2, hg3⟩

theorem isRounding_id : IsRounding (fun x => x) :=
  ⟨fun _ _ h => h, rfl, rfl, rfl⟩

/-- A run on the two sample questions with one right and one wrong answer, in
exact arithmetic: one answer is counted, the percentage is 50 and the grade
'Needs Improvement'. -/
theorem quiz_score_witness :
    countCorrect [sampleQuestion, orbitQuestion]
      (quizRun 2 [.select "A", .submit, .next, .select "B", .submit, .next]).userAnswers =
        .ok 1 ∧
    percentage (fun x => x) 1 2 = 50 ∧
    grade 50 = "Needs Improvement" ∧
    ∃ correctAnswers,
      countCorrect [sampleQuestion, orbitQuestion]
        (quizRun [sampleQuestion, orbitQuestion].length
          [.select "A", .submit, .next, .select "B", .submit, .next]).userAnswers =
        .ok correctAnswers ∧
      correctAnswers ≤ [sampleQuestion, orbitQuestion].length ∧
      0 ≤ percentage (fun x => x) correctAnswers [sampleQuestion, orbitQuestion].length ∧
      percentage (fun x => x) correctAnswers [sampleQuestion, orbitQuestion].length ≤ 100 := by
  refine ⟨rfl, ?_, by decide, ?_⟩
  · unfold percentage
    rw [Int.floor_eq_iff]
    norm_num
  · obtain ⟨k, h1, _, h3, h4, h5, _⟩ :=
      quiz_score [sampleQuestion, orbitQuestion] (by simp)
        (by
          intro q hq
          simp only [List.mem_cons, List.mem_singleton, List.not_mem_nil, or_false] at hq
          rcases hq with rfl | rfl <;> exact ⟨by simp [sampleQuestion, orbitQuestion],
            by simp [sampleQuestion, orbitQuestion]⟩)
        [.select "A", .submit, .next, .select "B", .submit, .next] (fun x => x) isRounding_id
    exact ⟨k, h1, h3, h4, h5⟩

end QuizMe
